import Mathlib

/-! Mastercom service: webhook outcome processor, case and document stores,
and their HTTP handlers.

Shallow embedding of `internal/models`, `internal/services` and
`internal/handlers` of the Go service, followed by the theorems about them.

Conventions of the embedding:

* a Go `error` is its message, `Option String` (`none` is `nil`);
* a Go pointer that may be `nil` is an `Option`;
* a Go `float64` is its IEEE 754 binary64 bit pattern (`Float64`), so that the
  comparisons of the source keep their behaviour on zeros, infinities and NaN;
* a Go `map[string]*T` is an association list with first-match lookup, whose
  order stands for the unspecified visiting order of `range`;
* a Go `int` is an `Int` reduced to the 64-bit range after each operation, and
  a run-time panic is the result `none`;
* the readings of the environment (`uuid.New()`, `time.Now()`) and the results
  of the gin and validator libraries are parameters;
* logging calls have no effect on any returned value and are left out.
-/

namespace Mastercom

/-! ## Go primitives -/

/-- Go `float64`: the 64-bit IEEE 754 binary64 pattern, read modulo `2^64`
(bit 63 sign, bits 62..52 biased exponent, bits 51..0 fraction). -/
structure Float64 where
  bits : Nat
deriving DecidableEq, Repr

namespace Float64

/-- Sign bit (0 or 1). -/
def sign (x : Float64) : Nat := x.bits % 2 ^ 64 / 2 ^ 63

/-- Biased exponent field (11 bits). -/
def exponent (x : Float64) : Nat := x.bits % 2 ^ 64 / 2 ^ 52 % 2 ^ 11

/-- Fraction field (52 bits). -/
def fraction (x : Float64) : Nat := x.bits % 2 ^ 52

/-- NaN: all exponent bits set and a non-zero fraction. -/
def isNaN (x : Float64) : Bool := x.exponent == 2047 && x.fraction != 0

/-- Positive or negative zero. -/
def isZero (x : Float64) : Bool := x.exponent == 0 && x.fraction == 0

/-- Go `x <= 0` on `float64`: false on NaN, true on both zeros and on every
value with the sign bit set. -/
def leZero (x : Float64) : Bool := !x.isNaN && (x.sign == 1 || x.isZero)

/-- Go `x > 0` on `float64`: false on NaN and on both zeros, true on every
other value with a clear sign bit. -/
def gtZero (x : Float64) : Bool := !x.isNaN && x.sign == 0 && !x.isZero

/-- The constant `0.00`. -/
def zero : Float64 := ⟨0⟩

/-- The constant `100.00` (`0x4059000000000000`). -/
def hundred : Float64 := ⟨0x4059000000000000⟩

/-- The value of `math.NaN()` (`0x7FF8000000000001`). -/
def nan : Float64 := ⟨0x7FF8000000000001⟩

end Float64

/-- Go `time.Time`, as nanoseconds since the Unix epoch. -/
structure Time where
  unixNano : Int
deriving DecidableEq, Repr

/-- Go `context.Context` as far as the service can observe it: the value the
handler stores under its request-id key. -/
structure Context where
  requestId : Option String
deriving DecidableEq, Repr

/-! ## internal/models/ethoca_webhook.go -/

/-- Source: `models.RefundAmount`. -/
structure RefundAmount where
  Value : Float64
  CurrencyCode : String
deriving DecidableEq, Repr

/-- Source: `models.AmountStopped`. -/
structure AmountStopped where
  Value : Float64
  CurrencyCode : String
deriving DecidableEq, Repr

/-- Source: `models.Refund` (the field `Type` is `RefundType` here). -/
structure Refund where
  Amount : RefundAmount
  RefundType : Option String
  Timestamp : String
  TransactionID : Option String
  AcquirerReferenceNumber : Option String
deriving DecidableEq, Repr

/-- Source: `models.AlertOutcome`. -/
structure AlertOutcome where
  AlertID : String
  Outcome : String
  RefundStatus : String
  Refund : Refund
  AmountStopped : AmountStopped
  Comments : Option String
  ActionTimestamp : Option String
deriving DecidableEq, Repr

/-- Source: `models.EthocaWebhook`. -/
structure EthocaWebhook where
  Outcomes : List AlertOutcome
deriving DecidableEq, Repr

/-- Source: `models.Error`; every field is a pointer in the source. -/
structure Error where
  Source : Option String
  ReasonCode : Option String
  Description : Option String
  Recoverable : Option Bool
  Details : Option String
deriving DecidableEq, Repr

/-- Source: `models.Errors`. -/
structure Errors where
  Error : List Error
deriving DecidableEq, Repr

/-- Source: `models.StatusUpdate`; `Errors` is a pointer in the source. -/
structure StatusUpdate where
  AlertID : String
  Status : String
  Errors : Option Errors
deriving DecidableEq, Repr

/-- Source: `models.OutcomeAcknowledgement`. -/
structure OutcomeAcknowledgement where
  OutcomeResponses : List StatusUpdate
deriving DecidableEq, Repr

/-- Source: `models.WebhookConfig`. -/
structure WebhookConfig where
  Endpoint : String
  SecretKey : String
  Timeout : Int
  MaxRetries : Int
  BatchSize : Int
deriving DecidableEq, Repr

/-! ## internal/services/ethoca_webhook_service.go -/

/-- Source: `services.EthocaWebhookService` (the logger is an output sink). -/
structure EthocaWebhookService where
  config : Option WebhookConfig
deriving DecidableEq, Repr

/-- Source: `validateOutcome`. The refund rule is tested first, then the
stopped rule; `nil` when neither fires. -/
def validateOutcome (_s : EthocaWebhookService) (outcome : AlertOutcome) : Option String :=
  if outcome.RefundStatus = "REFUNDED" ∧ outcome.Refund.Amount.Value.leZero = true then
    some "refund amount must be greater than 0 when refund status is REFUNDED"
  else if outcome.Outcome = "STOPPED" ∧ outcome.AmountStopped.Value.leZero = true then
    some "amount stopped must be greater than 0 when outcome is STOPPED"
  else
    none

/-- Source: `processFraudOutcome`: logs and returns `nil`. -/
def processFraudOutcome (_s : EthocaWebhookService) (_ctx : Context) (_outcome : AlertOutcome) :
    Option String :=
  none

/-- Source: `processDisputeOutcome`: logs and returns `nil`. -/
def processDisputeOutcome (_s : EthocaWebhookService) (_ctx : Context) (_outcome : AlertOutcome) :
    Option String :=
  none

/-- Source: `processOtherOutcome`: logs and returns `nil`. -/
def processOtherOutcome (_s : EthocaWebhookService) (_ctx : Context) (_outcome : AlertOutcome) :
    Option String :=
  none

/-- The zero value `models.StatusUpdate{}` returned next to a non-nil error. -/
def StatusUpdate.zeroValue : StatusUpdate := ⟨"", "", none⟩

/-- Source: the `switch outcome.Outcome` of `processOutcome`, giving the error
of the route that was taken. -/
def routeOutcome (s : EthocaWebhookService) (ctx : Context) (outcome : AlertOutcome) :
    Option String :=
  if outcome.Outcome = "STOPPED" ∨ outcome.Outcome = "PARTIALLY_STOPPED" then
    processFraudOutcome s ctx outcome
  else if outcome.Outcome = "RESOLVED" ∨ outcome.Outcome = "RESOLVED_PREVIOUSLY_REFUNDED" then
    processDisputeOutcome s ctx outcome
  else
    processOtherOutcome s ctx outcome

/-- Source: `processOutcome`. The local `webhookEvent` record (fresh uuid,
clock reading) is never stored nor returned and is left out. -/
def processOutcome (s : EthocaWebhookService) (ctx : Context) (outcome : AlertOutcome) :
    StatusUpdate × Option String :=
  match validateOutcome s outcome with
  | some err => (StatusUpdate.zeroValue, some err)
  | none =>
    match routeOutcome s ctx outcome with
    | some err => (StatusUpdate.zeroValue, some err)
    | none => ({ AlertID := outcome.AlertID, Status := "SUCCESS", Errors := none }, none)

/-- The status update `ProcessWebhook` builds when `processOutcome` fails with
message `msg`. -/
def failureUpdate (outcome : AlertOutcome) (msg : String) : StatusUpdate :=
  { AlertID := outcome.AlertID
    Status := "FAILURE"
    Errors := some
      { Error :=
          [ { Source := some "Service"
              ReasonCode := some "PROCESSING_ERROR"
              Description := some "Failed to process outcome"
              Recoverable := some true
              Details := some msg } ] } }

/-- Body of the `for _, outcome := range webhook.Outcomes` loop of
`ProcessWebhook`: the status update appended for one outcome. -/
def statusFor (s : EthocaWebhookService) (ctx : Context) (outcome : AlertOutcome) :
    StatusUpdate :=
  match processOutcome s ctx outcome with
  | (_, some msg) => failureUpdate outcome msg
  | (statusUpdate, none) => statusUpdate

/-- Source: `ProcessWebhook`. The loop appends one status update per outcome
to an initially nil slice; the result is `(acknowledgment, nil)`. -/
def ProcessWebhook (s : EthocaWebhookService) (ctx : Context) (webhook : EthocaWebhook) :
    Option OutcomeAcknowledgement × Option String :=
  let statusUpdates :=
    webhook.Outcomes.foldl (fun acc outcome => acc ++ [statusFor s ctx outcome]) []
  (some { OutcomeResponses := statusUpdates }, none)

/-- The business invariants of an alert outcome in the words of the
specification: a REFUNDED outcome has a refund amount greater than 0, and a
STOPPED outcome has an amount stopped greater than 0. -/
def invariantHolds (outcome : AlertOutcome) : Prop :=
  (outcome.RefundStatus = "REFUNDED" → outcome.Refund.Amount.Value.gtZero = true) ∧
  (outcome.Outcome = "STOPPED" → outcome.AmountStopped.Value.gtZero = true)

instance (outcome : AlertOutcome) : Decidable (invariantHolds outcome) := by
  unfold invariantHolds
  exact inferInstance

/-! ## internal/handlers/ethoca_webhook_handlers.go -/

/-- Source: `handlers.EthocaWebhookHandler` (the logger is an output sink). -/
structure EthocaWebhookHandler where
  webhookService : EthocaWebhookService
deriving DecidableEq, Repr

/-- What `HandleEthocaWebhook` reads of the gin request: the method, the
`Content-Type` header (empty when absent) and the outcome of
`c.ShouldBindJSON(&webhook)`, either the bound payload or the binding error. -/
structure WebhookRequest where
  Method : String
  ContentType : String
  BindJSON : Except String EthocaWebhook

/-- The `gin.H` bodies the handler writes: the error shape (keys `error`,
`code` and, for binding errors, `details`) and the success shape (keys
`status`, `outcomes`, `requestId`). -/
inductive ResponseBody where
  | failure (error : String) (code : String) (details : Option String)
  | success (status : String) (outcomes : List StatusUpdate) (requestId : String)
deriving DecidableEq, Repr

/-- HTTP response written by the handler: status code, the `X-Request-ID`
header and the JSON body. -/
structure HTTPResponse where
  StatusCode : Nat
  XRequestID : String
  Body : ResponseBody
deriving DecidableEq, Repr

/-- One run of the handler: the response it wrote (`none` when the run ends in
a nil-pointer panic) and the arguments of each call it made to the
processor. -/
structure HandlerRun where
  response : Option HTTPResponse
  processorCalls : List (Context × EthocaWebhook)
deriving DecidableEq, Repr

/-- Source: `HandleEthocaWebhook`, with the processor it calls and the request
id it generates (`uuid.New().String()`) as parameters. -/
def HandleEthocaWebhookWith
    (process : Context → EthocaWebhook → Option OutcomeAcknowledgement × Option String)
    (requestID : String) (req : WebhookRequest) : HandlerRun :=
  let ctx : Context := { requestId := some requestID }
  if req.Method ≠ "POST" then
    { response := some ⟨405, requestID, .failure "Method not allowed" "METHOD_NOT_ALLOWED" none⟩
      processorCalls := [] }
  else if req.ContentType ≠ "application/json" then
    { response := some ⟨400, requestID,
        .failure "Invalid content type. Expected application/json" "INVALID_CONTENT_TYPE" none⟩
      processorCalls := [] }
  else
    match req.BindJSON with
    | .error err =>
      { response := some ⟨400, requestID,
          .failure "Invalid JSON payload" "INVALID_JSON" (some err)⟩
        processorCalls := [] }
    | .ok webhook =>
      if webhook.Outcomes.length = 0 then
        { response := some ⟨400, requestID,
            .failure "No outcomes provided in webhook payload" "NO_OUTCOMES" none⟩
          processorCalls := [] }
      else if webhook.Outcomes.length > 25 then
        { response := some ⟨400, requestID,
            .failure "Maximum of 25 outcomes allowed per webhook" "TOO_MANY_OUTCOMES" none⟩
          processorCalls := [] }
      else
        match process ctx webhook with
        | (_, some _) =>
          { response := some ⟨500, requestID,
              .failure "Internal server error" "PROCESSING_ERROR" none⟩
            processorCalls := [(ctx, webhook)] }
        | (some acknowledgment, none) =>
          { response := some ⟨200, requestID,
              .success "SUCCESS" acknowledgment.OutcomeResponses requestID⟩
            processorCalls := [(ctx, webhook)] }
        | (none, none) =>
          { response := none, processorCalls := [(ctx, webhook)] }

/-- Source: `HandleEthocaWebhook` on the package-level handler, whose service
is the real `EthocaWebhookService`. -/
def HandleEthocaWebhook (h : EthocaWebhookHandler) (requestID : String)
    (req : WebhookRequest) : HandlerRun :=
  HandleEthocaWebhookWith (ProcessWebhook h.webhookService) requestID req

/-! ## internal/models/document.go, internal/models/case.go -/

/-- Source: `models.Document`; `Content` is the byte slice, one number per
byte. -/
structure Document where
  ID : String
  CaseID : String
  FileName : String
  FileType : String
  FileSize : Int
  Content : List Nat
  UploadedBy : String
  UploadedAt : Time
  Description : String
deriving DecidableEq, Repr

/-- Source: `models.Case`. -/
structure Case where
  ID : String
  CaseType : String
  CaseTypeDescription : String
  PrimaryAccountNumber : String
  TransactionAmount : Float64
  TransactionCurrency : String
  TransactionDate : Time
  TransactionID : String
  MerchantName : String
  MerchantCategoryCode : String
  ReasonCode : String
  ReasonDescription : String
  DisputeAmount : Float64
  DisputeCurrency : String
  FilingAs : String
  FilingIca : String
  FiledAgainstIca : String
  FiledBy : String
  FiledByContactName : String
  FiledByContactPhone : String
  FiledByContactEmail : String
  Status : String
  CreatedAt : Time
  UpdatedAt : Time
  Documents : List Document
deriving DecidableEq, Repr

/-! ## Go maps with string keys -/

/-- Go map read `v, exists := m[k]`: `none` when the key is absent. -/
def mapLookup {α : Type} (m : List (String × α)) (k : String) : Option α :=
  match m with
  | [] => none
  | (k', v) :: rest => if k' = k then some v else mapLookup rest k

/-- Go map write `m[k] = v`: replaces the value of a present key, adds the
entry otherwise. -/
def mapStore {α : Type} (m : List (String × α)) (k : String) (v : α) : List (String × α) :=
  match m with
  | [] => [(k, v)]
  | (k', v') :: rest => if k' = k then (k, v) :: rest else (k', v') :: mapStore rest k v

/-! ## internal/services/case_service.go -/

/-- Source: `services.CaseService`: the `cases` map (the mutex serialises the
calls, the logger is an output sink). -/
structure CaseService where
  cases : List (String × Case)
deriving DecidableEq, Repr

/-- Source: `NewCaseService`: an empty map. -/
def NewCaseService : CaseService := { cases := [] }

/-- Source: `CaseService.CreateCase`: the service after the call and the
returned error. -/
def CreateCase (s : CaseService) (caseObj : Case) : CaseService × Option String :=
  match mapLookup s.cases caseObj.ID with
  | some _ => (s, some "case already exists")
  | none => ({ cases := mapStore s.cases caseObj.ID caseObj }, none)

/-- Source: `CaseService.GetCase`: the stored case and a nil error, or nil and
the not-found error. -/
def GetCase (s : CaseService) (caseID : String) : Option Case × Option String :=
  match mapLookup s.cases caseID with
  | none => (none, some "case not found")
  | some caseObj => (some caseObj, none)

/-- Go `delete(m, k)`: removes the entry of the key, if any. -/
def mapDelete {α : Type} (m : List (String × α)) (k : String) : List (String × α) :=
  m.filter (fun e => decide (e.1 ≠ k))

/-- A Go map holds at most one entry per key. -/
def KeysUnique {α : Type} (m : List (String × α)) : Prop :=
  (m.map Prod.fst).Nodup

instance {α : Type} (m : List (String × α)) : Decidable (KeysUnique m) := by
  unfold KeysUnique
  exact inferInstance

/-- Go `int` arithmetic on a 64-bit platform: the result of an operation is
reduced to the two's-complement range `[-2^63, 2^63)`. -/
def wrapInt (x : Int) : Int :=
  (x + 9223372036854775808) % 18446744073709551616 - 9223372036854775808

/-- Go slice expression `xs[low:high]`: the elements from index `low` up to
`high`, or a run-time panic (`none`) unless `0 <= low <= high <= cap(xs)`. The
capacity is read as the length: the caller below never passes a `high` above
the length. -/
def sliceRange {α : Type} (xs : List α) (low high : Int) : Option (List α) :=
  if 0 ≤ low ∧ low ≤ high ∧ high ≤ (xs.length : Int) then
    some ((xs.drop low.toNat).take (high - low).toNat)
  else
    none

/-- Source: the filtering loop of `CaseService.ListCases`: every visited case
is appended when the filter is empty or equals its status. -/
def filterCases (s : CaseService) (status : String) : List Case :=
  s.cases.foldl
    (fun acc e => if status = "" ∨ e.2.Status = status then acc ++ [e.2] else acc) []

/-- Source: `CaseService.ListCases`: `(page of cases, total, error)`, or `none`
when the slice expression panics. The order of `s.cases` stands for the order
in which `range` visits the map during this call; that order is unspecified
in Go, so statements about `ListCases` are made for every arrangement of the
entries. -/
def ListCases (s : CaseService) (page limit : Int) (status : String) :
    Option (List Case × Int × Option String) :=
  let filteredCases := filterCases s status
  let total : Int := filteredCases.length
  let start := wrapInt (wrapInt (page - 1) * limit)
  let endIdx := wrapInt (start + limit)
  if start ≥ total then
    some ([], total, none)
  else
    let endIdx := if endIdx > total then total else endIdx
    match sliceRange filteredCases start endIdx with
    | none => none
    | some pageCases => some (pageCases, total, none)

/-- Source: `CaseService.UpdateCase`, with the reading of `time.Now()` as a
parameter: the service after the call and the returned error. -/
def UpdateCase (s : CaseService) (now : Time) (caseObj : Case) : CaseService × Option String :=
  match mapLookup s.cases caseObj.ID with
  | none => (s, some "case not found")
  | some _ =>
    ({ cases := mapStore s.cases caseObj.ID { caseObj with UpdatedAt := now } }, none)

/-- Source: `CaseService.DeleteCase`: the service after the call and the
returned error. -/
def DeleteCase (s : CaseService) (caseID : String) : CaseService × Option String :=
  match mapLookup s.cases caseID with
  | none => (s, some "case not found")
  | some _ => ({ cases := mapDelete s.cases caseID }, none)

/-- The store is a Go map whose every key is the ID of the case it holds. -/
def CaseService.Invariant (s : CaseService) : Prop :=
  KeysUnique s.cases ∧ ∀ e ∈ s.cases, e.2.ID = e.1

instance (s : CaseService) : Decidable s.Invariant := by
  unfold CaseService.Invariant
  exact inferInstance

/-- The total `ListCases` is expected to report: the number of stored cases
when the filter is empty, the number of stored cases whose status equals the
filter otherwise. -/
def expectedTotal (s : CaseService) (status : String) : Nat :=
  if status = "" then s.cases.length
  else s.cases.countP (fun e => decide (e.2.Status = status))

/-- Source: `models.CreateCaseRequest`. -/
structure CreateCaseRequest where
  CaseType : String
  PrimaryAccountNumber : String
  TransactionAmount : Float64
  TransactionCurrency : String
  TransactionDate : Time
  TransactionID : String
  MerchantName : String
  MerchantCategoryCode : String
  ReasonCode : String
  DisputeAmount : Float64
  DisputeCurrency : String
  FilingAs : String
  FilingIca : String
  FiledAgainstIca : String
  FiledBy : String
  FiledByContactName : String
  FiledByContactPhone : String
  FiledByContactEmail : String
deriving DecidableEq, Repr

/-- Source: `models.NewCase`, with the two readings of the environment as
parameters: `id` is the string of `uuid.New()` and `now` is `time.Now()`. The
two description fields are not set by the source and keep their zero value. -/
def NewCase (id : String) (now : Time) (req : CreateCaseRequest) : Case :=
  { ID := id
    CaseType := req.CaseType
    CaseTypeDescription := ""
    PrimaryAccountNumber := req.PrimaryAccountNumber
    TransactionAmount := req.TransactionAmount
    TransactionCurrency := req.TransactionCurrency
    TransactionDate := req.TransactionDate
    TransactionID := req.TransactionID
    MerchantName := req.MerchantName
    MerchantCategoryCode := req.MerchantCategoryCode
    ReasonCode := req.ReasonCode
    ReasonDescription := ""
    DisputeAmount := req.DisputeAmount
    DisputeCurrency := req.DisputeCurrency
    FilingAs := req.FilingAs
    FilingIca := req.FilingIca
    FiledAgainstIca := req.FiledAgainstIca
    FiledBy := req.FiledBy
    FiledByContactName := req.FiledByContactName
    FiledByContactPhone := req.FiledByContactPhone
    FiledByContactEmail := req.FiledByContactEmail
    Status := "PENDING"
    CreatedAt := now
    UpdatedAt := now
    Documents := [] }

/-- Source: `models.NewDocument`, with `id` the string of `uuid.New()` and
`now` the reading of `time.Now()`. `FileSize` is `int64(len(content))`; the
length of a Go slice always fits. -/
def NewDocument (id : String) (now : Time) (caseID fileName fileType : String)
    (content : List Nat) (uploadedBy description : String) : Document :=
  { ID := id
    CaseID := caseID
    FileName := fileName
    FileType := fileType
    FileSize := (content.length : Int)
    Content := content
    UploadedBy := uploadedBy
    UploadedAt := now
    Description := description }

/-! ## internal/services/document_service.go -/

/-- Source: `services.DocumentService`: the `documents` map. -/
structure DocumentService where
  documents : List (String × Document)
deriving DecidableEq, Repr

/-- Source: `NewDocumentService`: an empty map. -/
def NewDocumentService : DocumentService := { documents := [] }

/-- Source: `DocumentService.UploadDocument`: the service after the call and
the returned error. -/
def UploadDocument (s : DocumentService) (document : Document) :
    DocumentService × Option String :=
  match mapLookup s.documents document.ID with
  | some _ => (s, some "document already exists")
  | none => ({ documents := mapStore s.documents document.ID document }, none)

/-- Source: `DocumentService.GetDocument`: the stored document and a nil
error, or nil and the not-found error. -/
def GetDocument (s : DocumentService) (documentID : String) :
    Option Document × Option String :=
  match mapLookup s.documents documentID with
  | none => (none, some "document not found")
  | some document => (some document, none)

/-- Source: `DocumentService.DeleteDocument`: the service after the call and
the returned error. -/
def DeleteDocument (s : DocumentService) (documentID : String) :
    DocumentService × Option String :=
  match mapLookup s.documents documentID with
  | none => (s, some "document not found")
  | some _ => ({ documents := mapDelete s.documents documentID }, none)

/-- Source: `DocumentService.GetDocumentsByCaseID`: every visited document
whose `CaseID` equals `caseID` is appended to an initially nil slice; the
error is always nil. The order of `s.documents` stands for the order in which
`range` visits the map during this call. -/
def GetDocumentsByCaseID (s : DocumentService) (caseID : String) :
    List Document × Option String :=
  (s.documents.foldl
    (fun documents e => if e.2.CaseID = caseID then documents ++ [e.2] else documents) [],
   none)

/-- The document store is a Go map whose every key is the ID of the document
it holds. -/
def DocumentService.Invariant (s : DocumentService) : Prop :=
  KeysUnique s.documents ∧ ∀ e ∈ s.documents, e.2.ID = e.1

instance (s : DocumentService) : Decidable s.Invariant := by
  unfold DocumentService.Invariant
  exact inferInstance

/-- The states of the case store reachable from `NewCaseService` through
`CreateCase`, `UpdateCase` and `DeleteCase`, whether the call succeeds or
fails. -/
inductive CaseService.Reachable : CaseService → Prop where
  | empty : CaseService.Reachable NewCaseService
  | create (s : CaseService) (c : Case) :
      CaseService.Reachable s → CaseService.Reachable (CreateCase s c).1
  | update (s : CaseService) (now : Time) (c : Case) :
      CaseService.Reachable s → CaseService.Reachable (UpdateCase s now c).1
  | delete (s : CaseService) (id : String) :
      CaseService.Reachable s → CaseService.Reachable (DeleteCase s id).1

/-- The states of the document store reachable from `NewDocumentService`
through `UploadDocument` and `DeleteDocument`. -/
inductive DocumentService.Reachable : DocumentService → Prop where
  | empty : DocumentService.Reachable NewDocumentService
  | upload (s : DocumentService) (d : Document) :
      DocumentService.Reachable s → DocumentService.Reachable (UploadDocument s d).1
  | delete (s : DocumentService) (id : String) :
      DocumentService.Reachable s → DocumentService.Reachable (DeleteDocument s id).1

/-! ## internal/handlers/case_handlers.go, internal/handlers/document_handlers.go -/

/-- The JSON bodies written by the case and document handlers: the error
shape (`gin.H` with key `error` and, for validation errors, `details`), the
message shape (key `message`), a case and a document. -/
inductive EntityBody where
  | error (error : String) (details : Option String)
  | message (message : String)
  | caseObj (c : Case)
  | document (d : Document)
deriving DecidableEq, Repr

/-- HTTP response of a case or document handler. -/
structure EntityResponse where
  StatusCode : Nat
  Body : EntityBody
deriving DecidableEq, Repr

/-- Source: `handlers.CaseHandler`: the case service it points to and the
struct validator, as the function from a request to the error of
`validator.Struct` (the logger is an output sink). -/
structure CaseHandler where
  caseService : CaseService
  validator : CreateCaseRequest → Option String

/-- Source: `handlers.DocumentHandler`: the document service it points to. -/
structure DocumentHandler where
  documentService : DocumentService
deriving DecidableEq, Repr

/-- Source: `CaseHandler.GetCase`, on the path parameter `id`; `none` is the
nil dereference that a nil case with a nil error would cause. -/
def CaseHandler.GetCase (h : CaseHandler) (caseID : String) : Option EntityResponse :=
  if caseID = "" then
    some ⟨400, .error "Case ID is required" none⟩
  else
    match Mastercom.GetCase h.caseService caseID with
    | (_, some _) => some ⟨404, .error "Case not found" none⟩
    | (some caseObj, none) => some ⟨200, .caseObj caseObj⟩
    | (none, none) => none

/-- Source: `CaseHandler.UpdateCase`, on the path parameter `id` and the
outcome `bind` of `c.ShouldBindJSON(&req)`; `uuid` and `now` are the readings
of `NewCase`, `updateNow` the clock reading of the service. Returns the
handler with the service after the call, and the response. -/
def CaseHandler.UpdateCase (h : CaseHandler) (caseID : String)
    (bind : Except String CreateCaseRequest) (uuid : String) (now updateNow : Time) :
    CaseHandler × EntityResponse :=
  if caseID = "" then
    (h, ⟨400, .error "Case ID is required" none⟩)
  else
    match bind with
    | .error _ => (h, ⟨400, .error "Invalid request body" none⟩)
    | .ok req =>
      match h.validator req with
      | some err => (h, ⟨400, .error "Validation failed" (some err)⟩)
      | none =>
        let caseObj : Case := { NewCase uuid now req with ID := caseID }
        match Mastercom.UpdateCase h.caseService updateNow caseObj with
        | (s, some _) =>
          ({ h with caseService := s }, ⟨500, .error "Failed to update case" none⟩)
        | (s, none) =>
          ({ h with caseService := s }, ⟨200, .caseObj { caseObj with UpdatedAt := updateNow }⟩)

/-- Source: `CaseHandler.DeleteCase`, on the path parameter `id`. -/
def CaseHandler.DeleteCase (h : CaseHandler) (caseID : String) :
    CaseHandler × EntityResponse :=
  if caseID = "" then
    (h, ⟨400, .error "Case ID is required" none⟩)
  else
    match Mastercom.DeleteCase h.caseService caseID with
    | (s, some _) =>
      ({ h with caseService := s }, ⟨500, .error "Failed to delete case" none⟩)
    | (s, none) =>
      ({ h with caseService := s }, ⟨200, .message "Case deleted successfully"⟩)

/-- Source: `DocumentHandler.GetDocument`, on the path parameter `id`; `none`
is the nil dereference that a nil document with a nil error would cause. -/
def DocumentHandler.GetDocument (h : DocumentHandler) (documentID : String) :
    Option EntityResponse :=
  if documentID = "" then
    some ⟨400, .error "Document ID is required" none⟩
  else
    match Mastercom.GetDocument h.documentService documentID with
    | (_, some _) => some ⟨404, .error "Document not found" none⟩
    | (some document, none) => some ⟨200, .document document⟩
    | (none, none) => none

/-- Source: `DocumentHandler.DeleteDocument`, on the path parameter `id`. -/
def DocumentHandler.DeleteDocument (h : DocumentHandler) (documentID : String) :
    DocumentHandler × EntityResponse :=
  if documentID = "" then
    (h, ⟨400, .error "Document ID is required" none⟩)
  else
    match Mastercom.DeleteDocument h.documentService documentID with
    | (s, some _) =>
      ({ h with documentService := s }, ⟨500, .error "Failed to delete document" none⟩)
    | (s, none) =>
      ({ h with documentService := s }, ⟨200, .message "Document deleted successfully"⟩)

/-- The package-level state of `handlers` once `InitHandlers` and
`InitDocumentHandlers` have run: the case handler and the document handler,
each with its own service. -/
structure App where
  caseHandler : CaseHandler
  documentHandler : DocumentHandler

/-- Source: the package-level `handlers.DeleteCase`, with the handlers
initialised: it delegates to `caseHandler.DeleteCase`. -/
def App.DeleteCase (app : App) (caseID : String) : App × EntityResponse :=
  let r := app.caseHandler.DeleteCase caseID
  ({ app with caseHandler := r.1 }, r.2)

/-- The refund rule is violated: refund status REFUNDED with a refund amount
`<= 0`. -/
def violatesRefundRule (outcome : AlertOutcome) : Prop :=
  outcome.RefundStatus = "REFUNDED" ∧ outcome.Refund.Amount.Value.leZero = true

/-- The stopped rule is violated: outcome STOPPED with an amount stopped
`<= 0`. -/
def violatesStoppedRule (outcome : AlertOutcome) : Prop :=
  outcome.Outcome = "STOPPED" ∧ outcome.AmountStopped.Value.leZero = true

/-- Two outcomes agree on the alert id, the outcome kind, the refund status,
the refund amount value and the amount-stopped value. -/
def agreeOnDecidingFields (o1 o2 : AlertOutcome) : Prop :=
  o1.AlertID = o2.AlertID ∧ o1.Outcome = o2.Outcome ∧ o1.RefundStatus = o2.RefundStatus ∧
  o1.Refund.Amount.Value = o2.Refund.Amount.Value ∧
  o1.AmountStopped.Value = o2.AmountStopped.Value

/-! ## github.com/google/uuid (external library) -/

/-- A RESOLVED outcome with refund status REFUNDED whose refund amount is the
`float64` NaN; every other field as in the test fixtures of the service. -/
def nanRefundOutcome : AlertOutcome :=
  { AlertID := "A4IM9K2MIYL9F2BPF9TWUIXTU"
    Outcome := "RESOLVED"
    RefundStatus := "REFUNDED"
    Refund :=
      { Amount := { Value := Float64.nan, CurrencyCode := "USD" }
        RefundType := none
        Timestamp := "2021-06-18T22:11:05+05:00"
        TransactionID := none
        AcquirerReferenceNumber := none }
    AmountStopped := { Value := Float64.hundred, CurrencyCode := "USD" }
    Comments := none
    ActionTimestamp := none }

/-- Scenario outcome 1: kind STOPPED, refund status NOT_REFUNDED, amount
stopped 100; the other fields are those of `base`. -/
def scenarioStopped (base : AlertOutcome) : AlertOutcome :=
  { base with
    Outcome := "STOPPED"
    RefundStatus := "NOT_REFUNDED"
    AmountStopped := { base.AmountStopped with Value := Float64.hundred } }

/-- Scenario outcome 2: kind RESOLVED, refund status REFUNDED, refund amount
0; the other fields are those of `base`. -/
def scenarioRefundedZero (base : AlertOutcome) : AlertOutcome :=
  { base with
    Outcome := "RESOLVED"
    RefundStatus := "REFUNDED"
    Refund := { base.Refund with Amount := { base.Refund.Amount with Value := Float64.zero } } }

/-- Scenario outcome 3: kind STOPPED, amount stopped 0; the other fields,
refund status included, are those of `base`. -/
def scenarioStoppedZero (base : AlertOutcome) : AlertOutcome :=
  { base with
    Outcome := "STOPPED"
    AmountStopped := { base.AmountStopped with Value := Float64.zero } }

/-- A complete outcome of the test fixtures: STOPPED, NOT_REFUNDED, both
amounts 100. -/
def fixtureOutcome : AlertOutcome :=
  { AlertID := "A4IM9K2MIYL9F2BPF9TWUIXTU"
    Outcome := "STOPPED"
    RefundStatus := "NOT_REFUNDED"
    Refund :=
      { Amount := { Value := Float64.hundred, CurrencyCode := "USD" }
        RefundType := none
        Timestamp := "2021-06-18T22:11:05+05:00"
        TransactionID := none
        AcquirerReferenceNumber := none }
    AmountStopped := { Value := Float64.hundred, CurrencyCode := "USD" }
    Comments := none
    ActionTimestamp := none }

/-- The service of the test fixtures. -/
def fixtureService : EthocaWebhookService :=
  { config := some
      { Endpoint := "/test", SecretKey := "test-key", Timeout := 30, MaxRetries := 3,
        BatchSize := 25 } }

/-- The context `context.Background()`: no request id. -/
def backgroundContext : Context := { requestId := none }

/-- A two-outcome batch: a valid outcome followed by a REFUNDED outcome with
refund amount 0. -/
def mixedWebhook : EthocaWebhook :=
  { Outcomes := [fixtureOutcome, scenarioRefundedZero fixtureOutcome] }

/-- The acknowledgment expected for `mixedWebhook`: a SUCCESS entry, then a
FAILURE entry carrying the refund message. -/
def mixedAcknowledgement : OutcomeAcknowledgement :=
  { OutcomeResponses :=
      [ { AlertID := "A4IM9K2MIYL9F2BPF9TWUIXTU", Status := "SUCCESS", Errors := none },
        failureUpdate (scenarioRefundedZero fixtureOutcome)
          "refund amount must be greater than 0 when refund status is REFUNDED" ] }

/-- The handler of the running service. -/
def fixtureHandler : EthocaWebhookHandler := { webhookService := fixtureService }

/-- A POST request with content type `application/json` whose body binds to
`mixedWebhook`. -/
def mixedRequest : WebhookRequest :=
  { Method := "POST", ContentType := "application/json", BindJSON := .ok mixedWebhook }

/-- The case of the service tests (`createMockCase`), with the clock readings
set to the epoch. -/
def fixtureCase : Case :=
  { ID := "test-case-id"
    CaseType := "PRE_ARBITRATION"
    CaseTypeDescription := ""
    PrimaryAccountNumber := "4111111111111111"
    TransactionAmount := Float64.hundred
    TransactionCurrency := "USD"
    TransactionDate := ⟨0⟩
    TransactionID := "123456789"
    MerchantName := "Test Merchant"
    MerchantCategoryCode := ""
    ReasonCode := "10.1"
    ReasonDescription := ""
    DisputeAmount := Float64.zero
    DisputeCurrency := ""
    FilingAs := "ISSUER"
    FilingIca := "123456"
    FiledAgainstIca := "654321"
    FiledBy := ""
    FiledByContactName := ""
    FiledByContactPhone := ""
    FiledByContactEmail := ""
    Status := "PENDING"
    CreatedAt := ⟨0⟩
    UpdatedAt := ⟨0⟩
    Documents := [] }

/-- A second case, differing from `fixtureCase` by its identifier and its
merchant. -/
def otherCase : Case :=
  { fixtureCase with ID := "other-case-id", MerchantName := "Other Merchant" }

/-- The store holding `fixtureCase` only. -/
def fixtureCaseService : CaseService := (CreateCase NewCaseService fixtureCase).1

/-- The three cases of `TestCaseService_ListCases`: `case-1` and `case-3`
PENDING, `case-2` RESOLVED. -/
def listCase1 : Case := { fixtureCase with ID := "case-1", Status := "PENDING" }

/-- Second case of `TestCaseService_ListCases`. -/
def listCase2 : Case := { fixtureCase with ID := "case-2", Status := "RESOLVED" }

/-- Third case of `TestCaseService_ListCases`. -/
def listCase3 : Case := { fixtureCase with ID := "case-3", Status := "PENDING" }

/-- The store of `TestCaseService_ListCases`, visited in creation order. -/
def listCaseService : CaseService :=
  { cases := [("case-1", listCase1), ("case-2", listCase2), ("case-3", listCase3)] }

/-- The clock reading used for updates in the examples. -/
def laterTime : Time := ⟨1000⟩

/-- The update of `TestCaseService_UpdateCase`: new merchant name and status
for the stored identifier. -/
def updatedCase : Case :=
  { fixtureCase with MerchantName := "Updated Merchant", Status := "RESOLVED" }

/-- The request of the handler tests (`createMockCaseRequest`), with the
transaction date set to the epoch. -/
def fixtureRequest : CreateCaseRequest :=
  { CaseType := "PRE_ARBITRATION"
    PrimaryAccountNumber := "4111111111111111"
    TransactionAmount := Float64.hundred
    TransactionCurrency := "USD"
    TransactionDate := ⟨0⟩
    TransactionID := "123456789"
    MerchantName := "Test Merchant"
    MerchantCategoryCode := "5411"
    ReasonCode := "10.1"
    DisputeAmount := Float64.hundred
    DisputeCurrency := "USD"
    FilingAs := "ISSUER"
    FilingIca := "123456"
    FiledAgainstIca := "654321"
    FiledBy := "Test User"
    FiledByContactName := "John Doe"
    FiledByContactPhone := "+1234567890"
    FiledByContactEmail := "john.doe@example.com" }

/-- The bytes of `"PDF content"`. -/
def pdfContent : List Nat := [80, 68, 70, 32, 99, 111, 110, 116, 101, 110, 116]

/-- A document built as in `TestDocumentService_DifferentFileTypes`. -/
def fixtureDocument : Document :=
  NewDocument "doc-document.pdf" ⟨0⟩ "test-case-id" "document.pdf" ".pdf" pdfContent
    "test-user" "Test document description"

/-- The store holding `fixtureDocument` only. -/
def fixtureDocumentService : DocumentService :=
  (UploadDocument NewDocumentService fixtureDocument).1

/-- First document of `TestDocumentService_GetDocumentsByCaseID`. -/
def listDoc1 : Document :=
  { fixtureDocument with ID := "doc-1", CaseID := "case-1", FileName := "document1.pdf" }

/-- Second document of `TestDocumentService_GetDocumentsByCaseID`. -/
def listDoc2 : Document :=
  { fixtureDocument with ID := "doc-2", CaseID := "case-1", FileName := "document2.pdf" }

/-- Third document of `TestDocumentService_GetDocumentsByCaseID`. -/
def listDoc3 : Document :=
  { fixtureDocument with ID := "doc-3", CaseID := "case-2", FileName := "document3.pdf" }

/-- The store of `TestDocumentService_GetDocumentsByCaseID`, built by three
uploads. -/
def listDocumentService : DocumentService :=
  (UploadDocument (UploadDocument (UploadDocument NewDocumentService listDoc1).1 listDoc2).1
    listDoc3).1

/-- A validator that accepts every request. -/
def acceptingValidator : CreateCaseRequest → Option String := fun _ => none

/-- The store holding `fixtureCase` with status RESOLVED. -/
def resolvedCaseService : CaseService :=
  (CreateCase NewCaseService { fixtureCase with Status := "RESOLVED" }).1

/-- A case handler over `resolvedCaseService`. -/
def resolvedCaseHandler : CaseHandler :=
  { caseService := resolvedCaseService, validator := acceptingValidator }

/-- A case handler over the three-case store. -/
def listCaseHandler : CaseHandler :=
  { caseService := listCaseService, validator := acceptingValidator }

/-- A document handler over the three-document store. -/
def listDocumentHandler : DocumentHandler := { documentService := listDocumentService }

/-- The running application: three cases and three documents, two of which
belong to `case-1`. -/
def listApp : App := { caseHandler := listCaseHandler, documentHandler := listDocumentHandler }

/-- The fixture outcome with other comments, currency codes, refund type,
timestamps and transaction ids; the alert id, kind, refund status and the two
amount values are those of `fixtureOutcome`. -/
def relabelledOutcome : AlertOutcome :=
  { fixtureOutcome with
    Refund :=
      { Amount := { Value := Float64.hundred, CurrencyCode := "EUR" }
        RefundType := some "PARTIAL"
        Timestamp := "2022-01-01T00:00:00+00:00"
        TransactionID := some "tx-1"
        AcquirerReferenceNumber := some "arn-1" }
    AmountStopped := { Value := Float64.hundred, CurrencyCode := "EUR" }
    Comments := some "reviewed"
    ActionTimestamp := some "2022-01-02T00:00:00+00:00" }

/-- A GET request with a plain-text content type and a body that does not
bind. -/
def getRequest : WebhookRequest :=
  { Method := "GET", ContentType := "text/plain", BindJSON := .error "EOF" }

/-- A POST request whose content type carries a charset parameter and whose
body binds to `mixedWebhook`. -/
def charsetRequest : WebhookRequest :=
  { Method := "POST", ContentType := "application/json; charset=utf-8",
    BindJSON := .ok mixedWebhook }

/-- A RESOLVED, NOT_REFUNDED outcome whose two amounts are 0. -/
def unconstrainedOutcome : AlertOutcome :=
  { fixtureOutcome with
    Outcome := "RESOLVED"
    Refund :=
      { fixtureOutcome.Refund with
        Amount := { Value := Float64.zero, CurrencyCode := "USD" } }
    AmountStopped := { Value := Float64.zero, CurrencyCode := "USD" } }

/-! ## Lemmas on the webhook processor -/

/-- Appending one element per step is a map. -/
theorem foldl_append_singleton {α β : Type} (f : α → β) (l : List α) (init : List β) :
    l.foldl (fun acc a => acc ++ [f a]) init = init ++ l.map f := by
  induction l generalizing init with
  | nil => simp
  | cons a l ih => simp [ih]

/-- The acknowledgment is the list of per-outcome status updates, with a nil
error. -/
theorem ProcessWebhook_eq (s : EthocaWebhookService) (ctx : Context) (webhook : EthocaWebhook) :
    ProcessWebhook s ctx webhook =
      (some { OutcomeResponses := webhook.Outcomes.map (statusFor s ctx) }, none) := by
  simp [ProcessWebhook, foldl_append_singleton]

/-- No route handler returns an error. -/
theorem routeOutcome_eq_none (s : EthocaWebhookService) (ctx : Context) (outcome : AlertOutcome) :
    routeOutcome s ctx outcome = none := by
  unfold routeOutcome processFraudOutcome processDisputeOutcome processOtherOutcome
  split_ifs <;> rfl

/-- The status update of a rejected outcome. -/
theorem statusFor_of_invalid (s : EthocaWebhookService) (ctx : Context) (outcome : AlertOutcome)
    (msg : String) (h : validateOutcome s outcome = some msg) :
    statusFor s ctx outcome = failureUpdate outcome msg := by
  simp [statusFor, processOutcome, h]

/-- The status update of an accepted outcome. -/
theorem statusFor_of_valid (s : EthocaWebhookService) (ctx : Context) (outcome : AlertOutcome)
    (h : validateOutcome s outcome = none) :
    statusFor s ctx outcome =
      { AlertID := outcome.AlertID, Status := "SUCCESS", Errors := none } := by
  simp [statusFor, processOutcome, h, routeOutcome_eq_none]

/-- Every status update carries the alert id of its outcome. -/
theorem statusFor_AlertID (s : EthocaWebhookService) (ctx : Context) (outcome : AlertOutcome) :
    (statusFor s ctx outcome).AlertID = outcome.AlertID := by
  cases h : validateOutcome s outcome with
  | none => rw [statusFor_of_valid s ctx outcome h]
  | some msg => rw [statusFor_of_invalid s ctx outcome msg h]; rfl

/-! ## C1, C2: shape of the acknowledgment -/

/-- C1: for every batch, of any length, `ProcessWebhook` returns an
acknowledgment with exactly one entry per input outcome, in input order: the
lengths agree and, at every index, the entry carries the alert id of the input
outcome at that index, whether the entry is a SUCCESS or a FAILURE. -/
theorem C1_one_entry_per_outcome_in_order (s : EthocaWebhookService) (ctx : Context)
    (webhook : EthocaWebhook) :
    ∃ ack, (ProcessWebhook s ctx webhook).1 = some ack ∧
      ack.OutcomeResponses.length = webhook.Outcomes.length ∧
      ∀ i : Nat, (ack.OutcomeResponses.get? i).map (fun u => u.AlertID) =
        (webhook.Outcomes.get? i).map (fun o => o.AlertID) := by
  refine ⟨{ OutcomeResponses := webhook.Outcomes.map (statusFor s ctx) }, ?_, ?_, ?_⟩
  · rw [ProcessWebhook_eq]
  · simp
  · intro i
    simp only [List.get?_eq_getElem?, List.getElem?_map, Option.map_map]
    cases webhook.Outcomes[i]? with
    | none => rfl
    | some o => simp [statusFor_AlertID]

/-- C2: for every batch, `ProcessWebhook` returns a nil error and a non-nil
acknowledgment. -/
theorem C2_never_fails_whole_batch (s : EthocaWebhookService) (ctx : Context)
    (webhook : EthocaWebhook) :
    (ProcessWebhook s ctx webhook).2 = none ∧
      (ProcessWebhook s ctx webhook).1.isSome = true := by
  rw [ProcessWebhook_eq]
  exact ⟨rfl, rfl⟩

/-! ## C3, C4: the business invariants -/

/-- The sign field is a single bit. -/
theorem Float64.sign_zero_or_one (x : Float64) : x.sign = 0 ∨ x.sign = 1 := by
  unfold Float64.sign
  omega

/-- Off NaN, `x > 0` is the negation of `x <= 0`. -/
theorem Float64.gtZero_eq_not_leZero (x : Float64) (h : x.isNaN = false) :
    x.gtZero = !x.leZero := by
  unfold Float64.gtZero Float64.leZero
  rw [h]
  rcases x.sign_zero_or_one with h0 | h1
  · simp [h0]
  · simp [h1]

/-- On NaN both comparisons with 0 are false. -/
theorem Float64.nan_not_ordered (x : Float64) (h : x.isNaN = true) :
    x.gtZero = false ∧ x.leZero = false := by
  unfold Float64.gtZero Float64.leZero
  rw [h]
  simp

/-- When neither amount is NaN, `validateOutcome` accepts exactly the outcomes
on which both business invariants hold. -/
theorem validateOutcome_none_iff_of_ordered (s : EthocaWebhookService) (o : AlertOutcome)
    (hr : o.Refund.Amount.Value.isNaN = false) (ha : o.AmountStopped.Value.isNaN = false) :
    validateOutcome s o = none ↔ invariantHolds o := by
  unfold validateOutcome invariantHolds
  rw [Float64.gtZero_eq_not_leZero _ hr, Float64.gtZero_eq_not_leZero _ ha]
  split_ifs with h1 h2 <;> simp_all

/-- An outcome that is neither STOPPED nor REFUNDED is accepted whatever its
amounts are. -/
theorem validateOutcome_none_of_unconstrained (s : EthocaWebhookService) (o : AlertOutcome)
    (hr : o.RefundStatus ≠ "REFUNDED") (hs : o.Outcome ≠ "STOPPED") :
    validateOutcome s o = none := by
  simp [validateOutcome, hr, hs]

/-- An entry is a FAILURE exactly when `validateOutcome` rejected its outcome. -/
theorem statusFor_failure_iff (s : EthocaWebhookService) (ctx : Context) (o : AlertOutcome) :
    (statusFor s ctx o).Status = "FAILURE" ↔ (validateOutcome s o).isSome = true := by
  cases h : validateOutcome s o with
  | none => rw [statusFor_of_valid s ctx o h]; simp
  | some msg => rw [statusFor_of_invalid s ctx o msg h]; simp [failureUpdate]

/-- An entry is a SUCCESS exactly when `validateOutcome` accepted its outcome. -/
theorem statusFor_success_iff (s : EthocaWebhookService) (ctx : Context) (o : AlertOutcome) :
    (statusFor s ctx o).Status = "SUCCESS" ↔ validateOutcome s o = none := by
  cases h : validateOutcome s o with
  | none => rw [statusFor_of_valid s ctx o h]; simp
  | some msg => rw [statusFor_of_invalid s ctx o msg h]; simp [failureUpdate]

/-- The number of FAILURE entries of the acknowledgment is the number of
outcomes `validateOutcome` rejects, and the SUCCESS entries are the rest. -/
theorem ProcessWebhook_status_counts (s : EthocaWebhookService) (ctx : Context)
    (webhook : EthocaWebhook) :
    ((webhook.Outcomes.map (statusFor s ctx)).countP (fun u => decide (u.Status = "FAILURE")) =
        webhook.Outcomes.countP (fun o => (validateOutcome s o).isSome)) ∧
    ((webhook.Outcomes.map (statusFor s ctx)).countP (fun u => decide (u.Status = "SUCCESS")) =
        webhook.Outcomes.length -
          webhook.Outcomes.countP (fun o => (validateOutcome s o).isSome)) := by
  induction webhook.Outcomes with
  | nil => simp
  | cons o l ih =>
    obtain ⟨ihF, ihS⟩ := ih
    have hle : List.countP (fun o => (validateOutcome s o).isSome) l ≤ l.length :=
      List.countP_le_length _
    simp only [List.map_cons, List.countP_cons, List.length_cons, ihF, ihS]
    cases h : validateOutcome s o with
    | none =>
      have h1 := (statusFor_success_iff s ctx o).2 h
      have h2 : (statusFor s ctx o).Status ≠ "FAILURE" := by rw [h1]; decide
      simp [h1, h2]
      omega
    | some msg =>
      have h1 := (statusFor_failure_iff s ctx o).2 (by rw [h]; rfl)
      have h2 : (statusFor s ctx o).Status ≠ "SUCCESS" := by rw [h1]; decide
      simp [h1, h2]

/-- Outside the values JSON binding can deliver: on the one-outcome batch whose
outcome is REFUNDED with a NaN refund amount (a direct call with
`math.NaN()`), the refund invariant does not hold, and the single entry is
SUCCESS with nil errors. -/
theorem ProcessWebhook_nan_refund_batch (s : EthocaWebhookService) (ctx : Context) :
    [nanRefundOutcome].countP (fun o => decide (¬ invariantHolds o)) = 1 ∧
    (ProcessWebhook s ctx { Outcomes := [nanRefundOutcome] }).1 =
      some { OutcomeResponses :=
        [{ AlertID := "A4IM9K2MIYL9F2BPF9TWUIXTU", Status := "SUCCESS", Errors := none }] } := by
  constructor
  · decide
  · rw [ProcessWebhook_eq]
    unfold statusFor processOutcome validateOutcome routeOutcome processFraudOutcome
      processDisputeOutcome processOtherOutcome
    decide

/-- Outside the values JSON binding can deliver: `validateOutcome` accepts the
REFUNDED outcome whose refund amount is NaN, because `NaN <= 0` is false. -/
theorem validateOutcome_nan_refund (s : EthocaWebhookService) :
    validateOutcome s nanRefundOutcome = none ∧ ¬ invariantHolds nanRefundOutcome := by
  constructor
  · unfold validateOutcome
    decide
  · decide

/-- On a batch without NaN amounts, the FAILURE entries are as many as the
outcomes violating a business invariant. -/
theorem ProcessWebhook_failures_of_ordered (s : EthocaWebhookService) (ctx : Context)
    (webhook : EthocaWebhook)
    (hord : ∀ o ∈ webhook.Outcomes,
      o.Refund.Amount.Value.isNaN = false ∧ o.AmountStopped.Value.isNaN = false) :
    (webhook.Outcomes.map (statusFor s ctx)).countP (fun u => decide (u.Status = "FAILURE")) =
      webhook.Outcomes.countP (fun o => decide (¬ invariantHolds o)) := by
  rw [(ProcessWebhook_status_counts s ctx webhook).1]
  apply List.countP_congr
  intro o ho
  obtain ⟨hr, ha⟩ := hord o ho
  have hiff := validateOutcome_none_iff_of_ordered s o hr ha
  cases h : validateOutcome s o with
  | none => simp [hiff.1 h]
  | some msg =>
    have : ¬ invariantHolds o := fun hinv => by
      have := hiff.2 hinv
      rw [h] at this
      cases this
    simp [this]

/-- A FAILURE entry always carries a non-nil `Errors`. -/
theorem statusFor_failure_has_errors (s : EthocaWebhookService) (ctx : Context)
    (o : AlertOutcome) (h : (statusFor s ctx o).Status = "FAILURE") :
    (statusFor s ctx o).Errors.isSome = true := by
  cases hv : validateOutcome s o with
  | none =>
    rw [statusFor_of_valid s ctx o hv] at h
    simp at h
  | some msg =>
    rw [statusFor_of_invalid s ctx o msg hv]
    rfl

/-- C3: for a batch of M outcomes of which exactly F violate a business
invariant, the acknowledgment of `ProcessWebhook` has exactly M entries,
exactly F of them with status FAILURE and a non-nil structured error, and
exactly M-F of them with status SUCCESS. The amounts are numbers, as JSON
binding delivers them (never NaN). -/
theorem C3_failure_and_success_counts (s : EthocaWebhookService) (ctx : Context)
    (webhook : EthocaWebhook)
    (hord : ∀ o ∈ webhook.Outcomes,
      o.Refund.Amount.Value.isNaN = false ∧ o.AmountStopped.Value.isNaN = false) :
    ∃ ack, (ProcessWebhook s ctx webhook).1 = some ack ∧
      ack.OutcomeResponses.length = webhook.Outcomes.length ∧
      ack.OutcomeResponses.countP
          (fun u => decide (u.Status = "FAILURE" ∧ u.Errors.isSome = true)) =
        webhook.Outcomes.countP (fun o => decide (¬ invariantHolds o)) ∧
      ack.OutcomeResponses.countP (fun u => decide (u.Status = "FAILURE")) =
        webhook.Outcomes.countP (fun o => decide (¬ invariantHolds o)) ∧
      ack.OutcomeResponses.countP (fun u => decide (u.Status = "SUCCESS")) =
        webhook.Outcomes.length -
          webhook.Outcomes.countP (fun o => decide (¬ invariantHolds o)) := by
  rw [ProcessWebhook_eq]
  have hF := ProcessWebhook_failures_of_ordered s ctx webhook hord
  have hcounts := ProcessWebhook_status_counts s ctx webhook
  refine ⟨_, rfl, by simp, ?_, hF, ?_⟩
  · rw [← hF]
    apply List.countP_congr
    intro u hu
    obtain ⟨o, _, rfl⟩ := List.mem_map.1 hu
    by_cases hfail : (statusFor s ctx o).Status = "FAILURE"
    · simp [hfail, statusFor_failure_has_errors s ctx o hfail]
    · simp [hfail]
  · show List.countP (fun u => decide (u.Status = "SUCCESS"))
        (List.map (statusFor s ctx) webhook.Outcomes) = _
    rw [hcounts.2, ← hF, hcounts.1]

/-- Witness for C3 on the two-outcome batch `mixedWebhook` (M = 2, F = 1):
one FAILURE entry with errors and one SUCCESS entry. -/
theorem C3_failure_and_success_counts_witness :
    mixedWebhook.Outcomes.length = 2 ∧
    mixedWebhook.Outcomes.countP (fun o => decide (¬ invariantHolds o)) = 1 ∧
    ∃ ack, (ProcessWebhook fixtureService backgroundContext mixedWebhook).1 = some ack ∧
      ack.OutcomeResponses.length = mixedWebhook.Outcomes.length ∧
      ack.OutcomeResponses.countP
          (fun u => decide (u.Status = "FAILURE" ∧ u.Errors.isSome = true)) =
        mixedWebhook.Outcomes.countP (fun o => decide (¬ invariantHolds o)) ∧
      ack.OutcomeResponses.countP (fun u => decide (u.Status = "FAILURE")) =
        mixedWebhook.Outcomes.countP (fun o => decide (¬ invariantHolds o)) ∧
      ack.OutcomeResponses.countP (fun u => decide (u.Status = "SUCCESS")) =
        mixedWebhook.Outcomes.length -
          mixedWebhook.Outcomes.countP (fun o => decide (¬ invariantHolds o)) :=
  ⟨by decide, by decide,
   C3_failure_and_success_counts fixtureService backgroundContext mixedWebhook (by decide)⟩

/-- C4: `validateOutcome` accepts an outcome if and only if both business
invariants hold (REFUNDED implies refund amount > 0, STOPPED implies amount
stopped > 0), the amounts being numbers as JSON binding delivers them (never
NaN); and an outcome that is neither STOPPED nor REFUNDED is accepted whatever
its amounts are. -/
theorem C4_validateOutcome_iff_invariants (s : EthocaWebhookService) (o : AlertOutcome) :
    (o.Refund.Amount.Value.isNaN = false → o.AmountStopped.Value.isNaN = false →
      (validateOutcome s o = none ↔ invariantHolds o)) ∧
    (o.Outcome ≠ "STOPPED" → o.RefundStatus ≠ "REFUNDED" → validateOutcome s o = none) :=
  ⟨fun hr ha => validateOutcome_none_iff_of_ordered s o hr ha,
   fun hs hr => validateOutcome_none_of_unconstrained s o hr hs⟩

/-- Witness for C4 on the outcomes of the service tests: STOPPED with amount
stopped 0 is rejected and does not satisfy the invariants, while RESOLVED and
NOT_REFUNDED with both amounts 0 is accepted. -/
theorem C4_validateOutcome_iff_invariants_witness :
    (validateOutcome fixtureService (scenarioStoppedZero fixtureOutcome) = none ↔
      invariantHolds (scenarioStoppedZero fixtureOutcome)) ∧
    ¬ invariantHolds (scenarioStoppedZero fixtureOutcome) ∧
    validateOutcome fixtureService unconstrainedOutcome = none :=
  ⟨(C4_validateOutcome_iff_invariants fixtureService (scenarioStoppedZero fixtureOutcome)).1
      (by decide) (by decide),
   by decide,
   (C4_validateOutcome_iff_invariants fixtureService unconstrainedOutcome).2
      (by decide) (by decide)⟩

/-! ## C5: the concrete scenario -/

/-- Scenario outcome 1 is accepted. -/
theorem validateOutcome_scenarioStopped (s : EthocaWebhookService) (base : AlertOutcome) :
    validateOutcome s (scenarioStopped base) = none := by
  have h : Float64.hundred.leZero = false := by decide
  simp [validateOutcome, scenarioStopped, h]

/-- Scenario outcome 2 is rejected. -/
theorem validateOutcome_scenarioRefundedZero (s : EthocaWebhookService) (base : AlertOutcome) :
    (validateOutcome s (scenarioRefundedZero base)).isSome = true := by
  have h : Float64.zero.leZero = true := by decide
  simp [validateOutcome, scenarioRefundedZero, h]

/-- Scenario outcome 3 is rejected, whatever its refund status and refund
amount. -/
theorem validateOutcome_scenarioStoppedZero (s : EthocaWebhookService) (base : AlertOutcome) :
    (validateOutcome s (scenarioStoppedZero base)).isSome = true := by
  have h : Float64.zero.leZero = true := by decide
  unfold validateOutcome
  split_ifs with h1 h2
  · rfl
  · rfl
  · exact absurd ⟨rfl, h⟩ h2

/-- C5: the batch made of a STOPPED / NOT_REFUNDED outcome with amount stopped
100, a RESOLVED / REFUNDED outcome with refund amount 0 and a STOPPED outcome
with amount stopped 0 (all other fields arbitrary) yields an acknowledgment of
length 3 with statuses SUCCESS, FAILURE, FAILURE in that order. -/
theorem C5_scenario_statuses (s : EthocaWebhookService) (ctx : Context)
    (b1 b2 b3 : AlertOutcome) :
    ∃ ack,
      (ProcessWebhook s ctx
        { Outcomes := [scenarioStopped b1, scenarioRefundedZero b2, scenarioStoppedZero b3] }).1
        = some ack ∧
      ack.OutcomeResponses.length = 3 ∧
      ack.OutcomeResponses.map (fun u => u.Status) = ["SUCCESS", "FAILURE", "FAILURE"] := by
  rw [ProcessWebhook_eq]
  refine ⟨_, rfl, rfl, ?_⟩
  have h1 := (statusFor_success_iff s ctx _).2 (validateOutcome_scenarioStopped s b1)
  have h2 := (statusFor_failure_iff s ctx _).2 (validateOutcome_scenarioRefundedZero s b2)
  have h3 := (statusFor_failure_iff s ctx _).2 (validateOutcome_scenarioStoppedZero s b3)
  simp [h1, h2, h3]

/-! ## C6: structured errors -/

/-- The error returned by `processOutcome` is the one of `validateOutcome`. -/
theorem processOutcome_error (s : EthocaWebhookService) (ctx : Context) (o : AlertOutcome) :
    (processOutcome s ctx o).2 = validateOutcome s o := by
  unfold processOutcome
  cases validateOutcome s o with
  | none => simp [routeOutcome_eq_none]
  | some msg => rfl

/-- C6: in every acknowledgment produced by `ProcessWebhook`, an entry has a
non-nil `Errors` field if and only if its status is FAILURE, and every FAILURE
entry carries exactly one `Error` with Source "Service", ReasonCode
"PROCESSING_ERROR", Description "Failed to process outcome", Recoverable true
and Details equal to the message of the error `processOutcome` returned for
the outcome at the same index. -/
theorem C6_errors_iff_failure (s : EthocaWebhookService) (ctx : Context)
    (webhook : EthocaWebhook) (ack : OutcomeAcknowledgement)
    (hack : (ProcessWebhook s ctx webhook).1 = some ack) :
    (∀ u ∈ ack.OutcomeResponses, (u.Errors.isSome = true ↔ u.Status = "FAILURE")) ∧
    (∀ (i : Nat) (o : AlertOutcome) (u : StatusUpdate),
      webhook.Outcomes.get? i = some o → ack.OutcomeResponses.get? i = some u →
      u.Status = "FAILURE" →
      ∃ msg, (processOutcome s ctx o).2 = some msg ∧
        u.Errors = some
          { Error :=
              [ { Source := some "Service"
                  ReasonCode := some "PROCESSING_ERROR"
                  Description := some "Failed to process outcome"
                  Recoverable := some true
                  Details := some msg } ] }) := by
  rw [ProcessWebhook_eq] at hack
  simp only [Option.some.injEq] at hack
  subst hack
  constructor
  · intro u hu
    simp only [List.mem_map] at hu
    obtain ⟨o, _, rfl⟩ := hu
    cases h : validateOutcome s o with
    | none => rw [statusFor_of_valid s ctx o h]; simp
    | some msg => rw [statusFor_of_invalid s ctx o msg h]; simp [failureUpdate]
  · intro i o u ho hu hfail
    simp only [List.get?_eq_getElem?, List.getElem?_map] at ho hu
    rw [ho] at hu
    simp only [Option.map_some', Option.some.injEq] at hu
    subst hu
    rw [processOutcome_error]
    cases h : validateOutcome s o with
    | none =>
      rw [statusFor_of_valid s ctx o h] at hfail
      simp at hfail
    | some msg =>
      refine ⟨msg, rfl, ?_⟩
      rw [statusFor_of_invalid s ctx o msg h]
      rfl

/-- Witness for C6 on the two-outcome batch `mixedWebhook`: its second entry
is a FAILURE carrying the refund message in `Details`. -/
theorem C6_errors_iff_failure_witness :
    (ProcessWebhook fixtureService backgroundContext mixedWebhook).1 =
      some mixedAcknowledgement ∧
    ∃ msg,
      (processOutcome fixtureService backgroundContext
        (scenarioRefundedZero fixtureOutcome)).2 = some msg ∧
      (failureUpdate (scenarioRefundedZero fixtureOutcome)
        "refund amount must be greater than 0 when refund status is REFUNDED").Errors = some
          { Error :=
              [ { Source := some "Service"
                  ReasonCode := some "PROCESSING_ERROR"
                  Description := some "Failed to process outcome"
                  Recoverable := some true
                  Details := some msg } ] } :=
  ⟨by decide,
   (C6_errors_iff_failure fixtureService backgroundContext mixedWebhook mixedAcknowledgement
      (by decide)).2 1 (scenarioRefundedZero fixtureOutcome)
      (failureUpdate (scenarioRefundedZero fixtureOutcome)
        "refund amount must be greater than 0 when refund status is REFUNDED")
      (by decide) (by decide) (by decide)⟩

/-! ## C7, C8: the HTTP boundary of the webhook -/

/-- With the real service a handler run never answers 500. -/
theorem HandleEthocaWebhook_never_500 (h : EthocaWebhookHandler) (requestID : String)
    (req : WebhookRequest) (r : HTTPResponse)
    (hr : (HandleEthocaWebhook h requestID req).response = some r) : r.StatusCode ≠ 500 := by
  unfold HandleEthocaWebhook HandleEthocaWebhookWith at hr
  simp only [ProcessWebhook_eq] at hr
  split_ifs at hr with h1 h2
  · cases hr; simp
  · cases hr; simp
  · cases hb : req.BindJSON with
    | error err => rw [hb] at hr; cases hr; simp
    | ok webhook =>
      rw [hb] at hr
      simp only at hr
      split_ifs at hr with h3 h4
      · cases hr; simp
      · cases hr; simp
      · cases hr; simp

/-- C8: for every POST `application/json` request whose payload binds to
between 1 and 25 outcomes, `HandleEthocaWebhook` answers 200 with an outcomes
list equal to the `OutcomeResponses` of `ProcessWebhook` on that payload,
whatever the statuses of the items; and with the real service no request at
all is answered 500. -/
theorem C8_always_200 (h : EthocaWebhookHandler) (requestID : String)
    (req : WebhookRequest) (webhook : EthocaWebhook)
    (hm : req.Method = "POST") (hc : req.ContentType = "application/json")
    (hb : req.BindJSON = .ok webhook)
    (hlen : 1 ≤ webhook.Outcomes.length ∧ webhook.Outcomes.length ≤ 25) :
    (∃ ack,
      ProcessWebhook h.webhookService { requestId := some requestID } webhook = (some ack, none) ∧
      (HandleEthocaWebhook h requestID req).response =
        some ⟨200, requestID, .success "SUCCESS" ack.OutcomeResponses requestID⟩) ∧
    (∀ (requestID' : String) (req' : WebhookRequest) (r : HTTPResponse),
      (HandleEthocaWebhook h requestID' req').response = some r → r.StatusCode ≠ 500) := by
  refine ⟨⟨_, ProcessWebhook_eq _ _ _, ?_⟩, fun rid req' r hr =>
    HandleEthocaWebhook_never_500 h rid req' r hr⟩
  obtain ⟨h1, h25⟩ := hlen
  have hne : webhook.Outcomes.length ≠ 0 := by omega
  have hle : ¬ 25 < webhook.Outcomes.length := by omega
  simp only [HandleEthocaWebhook, HandleEthocaWebhookWith, hm, hc, hb, ProcessWebhook_eq]
  simp only [ne_eq, not_true_eq_false, if_false, hne, gt_iff_lt, hle]

/-- Witness for C8 on `mixedRequest`, whose second item is a FAILURE: the
answer is 200 with both entries. -/
theorem C8_always_200_witness :
    (HandleEthocaWebhook fixtureHandler "req-1" mixedRequest).response =
      some ⟨200, "req-1", .success "SUCCESS" mixedAcknowledgement.OutcomeResponses "req-1"⟩ := by
  obtain ⟨ack, hack, hresp⟩ :=
    (C8_always_200 fixtureHandler "req-1" mixedRequest mixedWebhook rfl rfl rfl
      (by decide)).1
  have hm : ProcessWebhook fixtureHandler.webhookService { requestId := some "req-1" }
      mixedWebhook = (some mixedAcknowledgement, none) := by decide
  rw [hm] at hack
  cases hack
  exact hresp

/-! ## C9, C10: creating and reading cases -/

/-- A key just written reads back the written value. -/
theorem mapLookup_mapStore_self {α : Type} (m : List (String × α)) (k : String) (v : α) :
    mapLookup (mapStore m k v) k = some v := by
  induction m with
  | nil => simp [mapStore, mapLookup]
  | cons e rest ih =>
    obtain ⟨k', v'⟩ := e
    by_cases hk : k' = k
    · simp [mapStore, mapLookup, hk]
    · simp [mapStore, mapLookup, hk, ih]

/-- A write leaves every other key as it was. -/
theorem mapLookup_mapStore_of_ne {α : Type} (m : List (String × α)) (k k0 : String) (v : α)
    (hne : k0 ≠ k) : mapLookup (mapStore m k v) k0 = mapLookup m k0 := by
  induction m with
  | nil =>
    have hne2 : k ≠ k0 := fun h => hne h.symm
    simp [mapStore, mapLookup, hne2]
  | cons e rest ih =>
    obtain ⟨k', v'⟩ := e
    by_cases hk : k' = k
    · subst hk
      have hne2 : k' ≠ k0 := fun h => hne h.symm
      simp [mapStore, mapLookup, hne2]
    · by_cases hk0 : k' = k0
      · subst hk0
        simp [mapStore, mapLookup, hk]
      · simp [mapStore, mapLookup, hk, hk0, ih]

/-- Creating a case whose ID is absent from the map returns no error, stores
the case under its ID and keeps every other entry. -/
theorem CreateCase_of_absent (s : CaseService) (c : Case)
    (habs : mapLookup s.cases c.ID = none) :
    (CreateCase s c).2 = none ∧
    mapLookup (CreateCase s c).1.cases c.ID = some c ∧
    ∀ id : String, id ≠ c.ID →
      mapLookup (CreateCase s c).1.cases id = mapLookup s.cases id := by
  unfold CreateCase
  rw [habs]
  exact ⟨rfl, mapLookup_mapStore_self s.cases c.ID c,
    fun id hid => mapLookup_mapStore_of_ne s.cases c.ID id c hid⟩

/-- C9: `CreateCase` fails with "case already exists" exactly when a case is
already stored under the same ID, and then the store is left unchanged;
otherwise it returns no error, the new case is stored under its ID and every
other identifier keeps its entry. -/
theorem C9_CreateCase_duplicate (s : CaseService) (c : Case) :
    ((CreateCase s c).2 = some "case already exists" ↔
      ∃ c0, mapLookup s.cases c.ID = some c0) ∧
    ((∃ c0, mapLookup s.cases c.ID = some c0) → (CreateCase s c).1 = s) ∧
    (mapLookup s.cases c.ID = none →
      (CreateCase s c).2 = none ∧
      mapLookup (CreateCase s c).1.cases c.ID = some c ∧
      ∀ id : String, id ≠ c.ID →
        mapLookup (CreateCase s c).1.cases id = mapLookup s.cases id) := by
  cases h : mapLookup s.cases c.ID with
  | some c0 => simp [CreateCase, h]
  | none =>
    have hab := CreateCase_of_absent s c h
    refine ⟨?_, ?_, fun _ => hab⟩
    · rw [hab.1]
      simp
    · rintro ⟨c0, hc0⟩
      cases hc0

/-- Witness for C9: creating `fixtureCase` a second time fails and leaves the
store as it was, with the first case still stored. -/
theorem C9_CreateCase_duplicate_witness :
    (CreateCase fixtureCaseService fixtureCase).2 = some "case already exists" ∧
    (CreateCase fixtureCaseService fixtureCase).1 = fixtureCaseService :=
  ⟨(C9_CreateCase_duplicate fixtureCaseService fixtureCase).1.2 ⟨fixtureCase, rfl⟩,
   (C9_CreateCase_duplicate fixtureCaseService fixtureCase).2.1 ⟨fixtureCase, rfl⟩⟩

/-- C10: for every store and every case `c` whose ID is not yet stored,
`CreateCase` succeeds, a following `GetCase` of that ID returns `c` itself
(all fields), and every case that `GetCase` returned before is still returned
unchanged. -/
theorem C10_create_then_get (s : CaseService) (c : Case)
    (hfresh : (GetCase s c.ID).1 = none) :
    (CreateCase s c).2 = none ∧
    GetCase (CreateCase s c).1 c.ID = (some c, none) ∧
    ∀ (id : String) (c0 : Case), GetCase s id = (some c0, none) →
      GetCase (CreateCase s c).1 id = (some c0, none) := by
  have hnone : mapLookup s.cases c.ID = none := by
    unfold GetCase at hfresh
    cases h : mapLookup s.cases c.ID with
    | none => rfl
    | some c0 => rw [h] at hfresh; cases hfresh
  obtain ⟨herr, hself, hframe⟩ := CreateCase_of_absent s c hnone
  refine ⟨herr, ?_, ?_⟩
  · simp [GetCase, hself]
  · intro id c0 hget
    have hid : id ≠ c.ID := by
      intro heq
      subst heq
      rw [hget] at hfresh
      cases hfresh
    unfold GetCase
    rw [hframe id hid]
    exact hget

/-- Witness for C10: `otherCase` is created in the store holding
`fixtureCase`; both are then returned by `GetCase`. -/
theorem C10_create_then_get_witness :
    (GetCase fixtureCaseService otherCase.ID).1 = none ∧
    (CreateCase fixtureCaseService otherCase).2 = none ∧
    GetCase (CreateCase fixtureCaseService otherCase).1 "other-case-id" =
      (some otherCase, none) ∧
    GetCase (CreateCase fixtureCaseService otherCase).1 "test-case-id" =
      (some fixtureCase, none) :=
  ⟨rfl,
   (C10_create_then_get fixtureCaseService otherCase rfl).1,
   (C10_create_then_get fixtureCaseService otherCase rfl).2.1,
   (C10_create_then_get fixtureCaseService otherCase rfl).2.2 "test-case-id" fixtureCase rfl⟩

/-! ## C11, C12: missing identifiers and updates -/

/-- A deleted key reads as absent. -/
theorem mapLookup_mapDelete_self {α : Type} (m : List (String × α)) (k : String) :
    mapLookup (mapDelete m k) k = none := by
  induction m with
  | nil => rfl
  | cons e rest ih =>
    obtain ⟨k', v'⟩ := e
    by_cases hk : k' = k
    · simpa [mapDelete, hk] using ih
    · simpa [mapDelete, mapLookup, hk] using ih

/-- A delete leaves every other key as it was. -/
theorem mapLookup_mapDelete_of_ne {α : Type} (m : List (String × α)) (k k0 : String)
    (hne : k0 ≠ k) : mapLookup (mapDelete m k) k0 = mapLookup m k0 := by
  induction m with
  | nil => rfl
  | cons e rest ih =>
    obtain ⟨k', v'⟩ := e
    by_cases hk : k' = k
    · subst hk
      have hne2 : k' ≠ k0 := fun h => hne h.symm
      simpa [mapDelete, mapLookup, hne2] using ih
    · by_cases hk0 : k' = k0
      · subst hk0
        simp [mapDelete, mapLookup, hk]
      · simpa [mapDelete, mapLookup, hk, hk0] using ih

/-- Writing a present key keeps the keys of the map, in place. -/
theorem mapStore_keys_of_present {α : Type} (m : List (String × α)) (k : String) (v v0 : α)
    (hpres : mapLookup m k = some v0) :
    (mapStore m k v).map Prod.fst = m.map Prod.fst := by
  induction m with
  | nil => simp [mapLookup] at hpres
  | cons e rest ih =>
    obtain ⟨k', v'⟩ := e
    by_cases hk : k' = k
    · simp [mapStore, hk]
    · simp only [mapLookup, hk, if_false] at hpres
      simp [mapStore, hk, ih hpres]

/-- The absent branch of `UpdateCase`. -/
theorem UpdateCase_of_absent (s : CaseService) (now : Time) (c : Case)
    (habs : mapLookup s.cases c.ID = none) :
    UpdateCase s now c = (s, some "case not found") := by
  simp [UpdateCase, habs]

/-- The present branch of `UpdateCase`. -/
theorem UpdateCase_of_present (s : CaseService) (now : Time) (c c0 : Case)
    (hpres : mapLookup s.cases c.ID = some c0) :
    UpdateCase s now c =
      ({ cases := mapStore s.cases c.ID { c with UpdatedAt := now } }, none) := by
  simp [UpdateCase, hpres]

/-- The absent branch of `DeleteCase`. -/
theorem DeleteCase_of_absent (s : CaseService) (id : String)
    (habs : mapLookup s.cases id = none) :
    DeleteCase s id = (s, some "case not found") := by
  simp [DeleteCase, habs]

/-- The present branch of `DeleteCase`. -/
theorem DeleteCase_of_present (s : CaseService) (id : String) (c0 : Case)
    (hpres : mapLookup s.cases id = some c0) :
    DeleteCase s id = ({ cases := mapDelete s.cases id }, none) := by
  simp [DeleteCase, hpres]

/-- C11: `GetCase`, `UpdateCase` and `DeleteCase` return the error "case not
found" exactly when the identifier is absent from the map, and return no error
when it is present; a failed `UpdateCase` or `DeleteCase` leaves the store
unchanged. -/
theorem C11_not_found_iff_absent (s : CaseService) (now : Time) (c : Case) (id : String) :
    (((GetCase s id).2 = some "case not found" ↔ mapLookup s.cases id = none) ∧
      ((GetCase s id).2 = none ↔ ∃ c0, mapLookup s.cases id = some c0)) ∧
    (((UpdateCase s now c).2 = some "case not found" ↔ mapLookup s.cases c.ID = none) ∧
      ((UpdateCase s now c).2 = none ↔ ∃ c0, mapLookup s.cases c.ID = some c0)) ∧
    (((DeleteCase s id).2 = some "case not found" ↔ mapLookup s.cases id = none) ∧
      ((DeleteCase s id).2 = none ↔ ∃ c0, mapLookup s.cases id = some c0)) ∧
    ((UpdateCase s now c).2 = some "case not found" → (UpdateCase s now c).1 = s) ∧
    ((DeleteCase s id).2 = some "case not found" → (DeleteCase s id).1 = s) := by
  refine ⟨?_, ?_, ?_, ?_, ?_⟩
  · cases h : mapLookup s.cases id <;> simp [GetCase, h]
  · cases h : mapLookup s.cases c.ID <;> simp [UpdateCase, h]
  · cases h : mapLookup s.cases id <;> simp [DeleteCase, h]
  · cases h : mapLookup s.cases c.ID <;> simp [UpdateCase, h]
  · cases h : mapLookup s.cases id <;> simp [DeleteCase, h]

/-- Witness for C11: in the store holding `fixtureCase`, the identifier
`nonexistent-id` is reported missing by the three operations and the store is
left as it was. -/
theorem C11_not_found_iff_absent_witness :
    (GetCase fixtureCaseService "nonexistent-id").2 = some "case not found" ∧
    (UpdateCase fixtureCaseService laterTime otherCase).2 = some "case not found" ∧
    (DeleteCase fixtureCaseService "nonexistent-id").2 = some "case not found" ∧
    (UpdateCase fixtureCaseService laterTime otherCase).1 = fixtureCaseService ∧
    (DeleteCase fixtureCaseService "nonexistent-id").1 = fixtureCaseService :=
  have h := C11_not_found_iff_absent fixtureCaseService laterTime otherCase "nonexistent-id"
  ⟨h.1.1.2 (by decide), h.2.1.1.2 (by decide), h.2.2.1.1.2 (by decide),
   h.2.2.2.1 (h.2.1.1.2 (by decide)), h.2.2.2.2 (h.2.2.1.1.2 (by decide))⟩

/-- C12: when `c.ID` is present, `UpdateCase` returns no error and replaces the
stored value wholesale: a following `GetCase` of that ID returns the supplied
case (all its fields, the same ID) with `UpdatedAt` set to the current time,
the stored identifiers are the same as before, and every other identifier
still reads the case it held. -/
theorem C12_update_replaces (s : CaseService) (now : Time) (c c0 : Case)
    (hpres : mapLookup s.cases c.ID = some c0) :
    (UpdateCase s now c).2 = none ∧
    GetCase (UpdateCase s now c).1 c.ID = (some { c with UpdatedAt := now }, none) ∧
    (UpdateCase s now c).1.cases.map Prod.fst = s.cases.map Prod.fst ∧
    ∀ id : String, id ≠ c.ID → GetCase (UpdateCase s now c).1 id = GetCase s id := by
  rw [UpdateCase_of_present s now c c0 hpres]
  refine ⟨rfl, ?_, ?_, ?_⟩
  · simp [GetCase, mapLookup_mapStore_self]
  · exact mapStore_keys_of_present s.cases c.ID _ c0 hpres
  · intro id hid
    simp [GetCase, mapLookup_mapStore_of_ne s.cases c.ID id _ hid]

/-- Witness for C12: the update of `TestCaseService_UpdateCase` on the store
holding `fixtureCase`. -/
theorem C12_update_replaces_witness :
    (UpdateCase fixtureCaseService laterTime updatedCase).2 = none ∧
    GetCase (UpdateCase fixtureCaseService laterTime updatedCase).1 "test-case-id" =
      (some { updatedCase with UpdatedAt := laterTime }, none) :=
  have h := C12_update_replaces fixtureCaseService laterTime updatedCase fixtureCase
    (by decide)
  ⟨h.1, h.2.1⟩

/-! ## C13 to C17: listing and deleting cases -/

/-- Inside the 64-bit range no wrap-around happens. -/
theorem wrapInt_of_inRange (x : Int) (hlo : -9223372036854775808 ≤ x)
    (hhi : x < 9223372036854775808) : wrapInt x = x := by
  unfold wrapInt
  omega

/-- The filtering loop started from `init` appends the matching cases in
visiting order. -/
theorem filterCases_foldl (l : List (String × Case)) (status : String) (init : List Case) :
    l.foldl (fun acc e => if status = "" ∨ e.2.Status = status then acc ++ [e.2] else acc) init =
      init ++ (l.filter (fun e => decide (status = "" ∨ e.2.Status = status))).map Prod.snd := by
  induction l generalizing init with
  | nil => simp
  | cons e rest ih =>
    by_cases hp : status = "" ∨ e.2.Status = status
    · simp [List.foldl_cons, hp, ih]
    · simp [List.foldl_cons, hp, ih]

/-- The filtering loop is a filter followed by a projection. -/
theorem filterCases_eq (s : CaseService) (status : String) :
    filterCases s status =
      (s.cases.filter (fun e => decide (status = "" ∨ e.2.Status = status))).map Prod.snd := by
  simp [filterCases, filterCases_foldl]

/-- The filtered list has as many cases as the expected total. -/
theorem filterCases_length (s : CaseService) (status : String) :
    (filterCases s status).length = expectedTotal s status := by
  rw [filterCases_eq, List.length_map, ← List.countP_eq_length_filter]
  unfold expectedTotal
  by_cases hs : status = ""
  · simp [hs]
  · simp [hs]

/-- A slice expression that does not panic yields a sublist. -/
theorem sliceRange_sublist {α : Type} (xs ys : List α) (low high : Int)
    (h : sliceRange xs low high = some ys) : ys.Sublist xs := by
  unfold sliceRange at h
  split_ifs at h
  cases h
  exact (List.take_sublist _ _).trans (List.drop_sublist _ _)

/-- Whenever `ListCases` returns, the page is a sublist of the filtered cases,
the total is the expected total and the error is nil. -/
theorem ListCases_result (s : CaseService) (page limit : Int) (status : String)
    (r : List Case × Int × Option String) (h : ListCases s page limit status = some r) :
    r.1.Sublist (filterCases s status) ∧ r.2.1 = (expectedTotal s status : Int) ∧
      r.2.2 = none := by
  unfold ListCases at h
  simp only [filterCases_length] at h
  split_ifs at h with h1 h2
  · cases h
    simp
  · cases hsl : sliceRange (filterCases s status) _ _ with
    | none => rw [hsl] at h; cases h
    | some ys =>
      rw [hsl] at h
      cases h
      exact ⟨sliceRange_sublist _ _ _ _ hsl, rfl, rfl⟩
  · cases hsl : sliceRange (filterCases s status) _ _ with
    | none => rw [hsl] at h; cases h
    | some ys =>
      rw [hsl] at h
      cases h
      exact ⟨sliceRange_sublist _ _ _ _ hsl, rfl, rfl⟩

/-- For `page >= 1` and `limit >= 0` whose end index stays inside the 64-bit
range, `ListCases` returns, with the expected total and a page of
`min(limit, max(0, K - (page-1)*limit))` cases. -/
theorem ListCases_of_valid (s : CaseService) (page limit : Int) (status : String)
    (hp : 1 ≤ page) (hl : 0 ≤ limit)
    (hov : (page - 1) * limit + limit < 9223372036854775808) :
    ∃ cases, ListCases s page limit status =
        some (cases, (expectedTotal s status : Int), none) ∧
      (cases.length : Int) =
        min limit (max 0 ((expectedTotal s status : Int) - (page - 1) * limit)) := by
  have hP0 : 0 ≤ (page - 1) * limit := mul_nonneg (by omega) hl
  have hstart : wrapInt (wrapInt (page - 1) * limit) = (page - 1) * limit := by
    rcases eq_or_lt_of_le hl with h0 | hpos
    · rw [← h0]
      simp [wrapInt]
    · have hle : page - 1 ≤ (page - 1) * limit := by nlinarith
      rw [wrapInt_of_inRange (page - 1) (by omega) (by omega)]
      exact wrapInt_of_inRange _ (by omega) (by omega)
  unfold ListCases
  simp only [filterCases_length, hstart]
  generalize (page - 1) * limit = P at hP0 hov hstart ⊢
  have hend : wrapInt (P + limit) = P + limit :=
    wrapInt_of_inRange _ (by omega) (by omega)
  rw [hend]
  have hlen := filterCases_length s status
  generalize expectedTotal s status = K at hlen ⊢
  generalize filterCases s status = fc at hlen ⊢
  by_cases hge : P ≥ (K : Int)
  · rw [if_pos hge]
    refine ⟨[], rfl, ?_⟩
    simp only [List.length_nil, Nat.cast_zero]
    omega
  · rw [if_neg hge]
    have hsl : sliceRange fc P (if P + limit > (K : Int) then (K : Int) else P + limit) =
        some ((fc.drop P.toNat).take
          ((if P + limit > (K : Int) then (K : Int) else P + limit) - P).toNat) := by
      unfold sliceRange
      rw [if_pos]
      rw [hlen]
      split_ifs <;> omega
    simp only [hsl]
    refine ⟨_, rfl, ?_⟩
    rw [List.length_take, List.length_drop, hlen]
    split_ifs <;> omega

/-- The expected total does not depend on the visiting order. -/
theorem expectedTotal_of_perm (s t : CaseService) (status : String)
    (hperm : s.cases.Perm t.cases) : expectedTotal s status = expectedTotal t status := by
  unfold expectedTotal
  rw [hperm.length_eq, hperm.countP_eq]

/-- Deleting a key that is not in the map changes nothing. -/
theorem mapDelete_of_not_mem {α : Type} (m : List (String × α)) (k : String)
    (hk : k ∉ m.map Prod.fst) : mapDelete m k = m := by
  unfold mapDelete
  rw [List.filter_eq_self]
  intro e he
  have hne : e.1 ≠ k := fun h => hk (h ▸ List.mem_map_of_mem Prod.fst he)
  simp [hne]

/-- In a map, deleting a present key removes exactly its entry: a count over
the values drops by one when the removed value is counted, and is unchanged
otherwise. -/
theorem countP_mapDelete {α : Type} (m : List (String × α)) (k : String) (v0 : α)
    (q : α → Bool) (huniq : KeysUnique m) (hpres : mapLookup m k = some v0) :
    (mapDelete m k).countP (fun e => q e.2) + (if q v0 = true then 1 else 0) =
      m.countP (fun e => q e.2) := by
  induction m with
  | nil => simp [mapLookup] at hpres
  | cons e rest ih =>
    obtain ⟨k', v'⟩ := e
    have hu : k' ∉ rest.map Prod.fst ∧ KeysUnique rest := by
      simpa [KeysUnique] using huniq
    by_cases hk : k' = k
    · subst hk
      have hv : v' = v0 := by simpa [mapLookup] using hpres
      subst hv
      have hrest : mapDelete rest k' = rest := mapDelete_of_not_mem rest k' hu.1
      have hd : mapDelete ((k', v') :: rest) k' = rest := by
        rw [← hrest]
        simp [mapDelete]
      rw [hd, List.countP_cons]
    · have hpres2 : mapLookup rest k = some v0 := by simpa [mapLookup, hk] using hpres
      have hd : mapDelete ((k', v') :: rest) k = (k', v') :: mapDelete rest k := by
        simp [mapDelete, hk]
      rw [hd, List.countP_cons, List.countP_cons, ← ih hu.2 hpres2]
      omega

/-- Deleting a stored case lowers the expected total by one for a filter the
case matches and keeps it for any other filter. -/
theorem expectedTotal_DeleteCase (s : CaseService) (id : String) (c0 : Case) (status : String)
    (huniq : KeysUnique s.cases) (hpres : mapLookup s.cases id = some c0) :
    expectedTotal (DeleteCase s id).1 status +
        (if status = "" ∨ c0.Status = status then 1 else 0) =
      expectedTotal s status := by
  rw [DeleteCase_of_present s id c0 hpres]
  unfold expectedTotal
  by_cases hs : status = ""
  · have h := countP_mapDelete s.cases id c0 (fun _ => true) huniq hpres
    simpa [hs] using h
  · have h := countP_mapDelete s.cases id c0 (fun c => decide (c.Status = status)) huniq hpres
    simpa [hs] using h

/-- A present key is an entry of the map. -/
theorem mem_of_mapLookup {α : Type} (m : List (String × α)) (k : String) (v : α)
    (h : mapLookup m k = some v) : (k, v) ∈ m := by
  induction m with
  | nil => simp [mapLookup] at h
  | cons e rest ih =>
    obtain ⟨k', v'⟩ := e
    by_cases hk : k' = k
    · subst hk
      have hv : v' = v := by simpa [mapLookup] using h
      simp [hv]
    · have h2 : mapLookup rest k = some v := by simpa [mapLookup, hk] using h
      exact List.mem_cons_of_mem _ (ih h2)

/-- In a map, an entry is what its key reads. -/
theorem mapLookup_of_mem {α : Type} (m : List (String × α)) (k : String) (v : α)
    (huniq : KeysUnique m) (h : (k, v) ∈ m) : mapLookup m k = some v := by
  induction m with
  | nil => simp at h
  | cons e rest ih =>
    obtain ⟨k', v'⟩ := e
    have hu : k' ∉ rest.map Prod.fst ∧ KeysUnique rest := by
      simpa [KeysUnique] using huniq
    rcases List.mem_cons.1 h with heq | hmem
    · cases heq
      simp [mapLookup]
    · have hk : k' ≠ k := fun hkk => hu.1 (hkk ▸ List.mem_map_of_mem Prod.fst hmem)
      simpa [mapLookup, hk] using ih hu.2 hmem

/-- C13: when `id` is present in the map, `DeleteCase` returns no error, a
following `GetCase` of `id` fails with "case not found", every other
identifier still reads the case it held, and for every filter the deleted case
matches (the empty filter or its own status) the total reported by `ListCases`
after the delete is exactly one less than the total reported before, whatever
the paging arguments and visiting orders of the two calls. -/
theorem C13_delete_removes_one (s : CaseService) (id : String) (c0 : Case)
    (huniq : KeysUnique s.cases) (hpres : mapLookup s.cases id = some c0) :
    (DeleteCase s id).2 = none ∧
    GetCase (DeleteCase s id).1 id = (none, some "case not found") ∧
    (∀ id0 : String, id0 ≠ id → GetCase (DeleteCase s id).1 id0 = GetCase s id0) ∧
    (∀ (status : String) (before after : CaseService) (page limit page0 limit0 : Int)
        (r r0 : List Case × Int × Option String),
      (status = "" ∨ c0.Status = status) →
      before.cases.Perm s.cases → after.cases.Perm (DeleteCase s id).1.cases →
      ListCases before page limit status = some r →
      ListCases after page0 limit0 status = some r0 →
      r0.2.1 + 1 = r.2.1) := by
  refine ⟨?_, ?_, ?_, ?_⟩
  · rw [DeleteCase_of_present s id c0 hpres]
  · rw [DeleteCase_of_present s id c0 hpres]
    simp [GetCase, mapLookup_mapDelete_self]
  · intro id0 hne
    rw [DeleteCase_of_present s id c0 hpres]
    simp [GetCase, mapLookup_mapDelete_of_ne s.cases id id0 hne]
  · intro status before after page limit page0 limit0 r r0 hmatch hb ha hr hr0
    have h1 := (ListCases_result before page limit status r hr).2.1
    have h2 := (ListCases_result after page0 limit0 status r0 hr0).2.1
    rw [expectedTotal_of_perm before s status hb] at h1
    rw [expectedTotal_of_perm after (DeleteCase s id).1 status ha] at h2
    have h3 := expectedTotal_DeleteCase s id c0 status huniq hpres
    rw [if_pos hmatch] at h3
    rw [h1, h2, ← h3]
    push_cast
    rfl

/-- Witness for C13: `case-1` (PENDING) is deleted from the three-case store;
the PENDING total goes from 2 to 1 and `case-2` is still returned. -/
theorem C13_delete_removes_one_witness :
    (DeleteCase listCaseService "case-1").2 = none ∧
    GetCase (DeleteCase listCaseService "case-1").1 "case-1" =
      (none, some "case not found") ∧
    GetCase (DeleteCase listCaseService "case-1").1 "case-2" = (some listCase2, none) ∧
    ListCases listCaseService 1 10 "PENDING" = some ([listCase1, listCase3], 2, none) ∧
    ListCases (DeleteCase listCaseService "case-1").1 1 10 "PENDING" =
      some ([listCase3], 1, none) ∧
    (([listCase3], 1, none) : List Case × Int × Option String).2.1 + 1 =
      (([listCase1, listCase3], 2, none) : List Case × Int × Option String).2.1 :=
  have h := C13_delete_removes_one listCaseService "case-1" listCase1 (by decide) (by decide)
  ⟨h.1, h.2.1, h.2.2.1 "case-2" (by decide), by decide, by decide,
   h.2.2.2 "PENDING" listCaseService (DeleteCase listCaseService "case-1").1 1 10 1 10
     ([listCase1, listCase3], 2, none) ([listCase3], 1, none) (by decide)
     (List.Perm.refl _) (List.Perm.refl _) (by decide) (by decide)⟩

/-- C14: every result `ListCases` returns carries as total the number of
stored cases when the filter is empty and the number of stored cases whose
status equals the filter otherwise, with a nil error, whatever `page` and
`limit` are; and for `page >= 1` and `limit >= 0` whose end index stays inside
the 64-bit range it does return such a result. -/
theorem C14_total_independent_of_paging (s : CaseService) (page limit : Int)
    (status : String) :
    (∀ r : List Case × Int × Option String, ListCases s page limit status = some r →
      r.2.1 = (expectedTotal s status : Int) ∧ r.2.2 = none) ∧
    (1 ≤ page → 0 ≤ limit → (page - 1) * limit + limit < 9223372036854775808 →
      ∃ cases, ListCases s page limit status =
        some (cases, (expectedTotal s status : Int), none)) := by
  refine ⟨fun r hr => (ListCases_result s page limit status r hr).2, fun hp hl hov => ?_⟩
  obtain ⟨cases, hc, _⟩ := ListCases_of_valid s page limit status hp hl hov
  exact ⟨cases, hc⟩

/-- Witness for C14 on the three-case store: the PENDING total is 2 on page 1
with limit 10 and the unfiltered total is 3 on page 2 with limit 2. -/
theorem C14_total_independent_of_paging_witness :
    (∃ cases, ListCases listCaseService 1 10 "PENDING" = some (cases, 2, none)) ∧
    (∃ cases, ListCases listCaseService 2 2 "" = some (cases, 3, none)) :=
  ⟨(C14_total_independent_of_paging listCaseService 1 10 "PENDING").2
      (by decide) (by decide) (by decide),
   (C14_total_independent_of_paging listCaseService 2 2 "").2
      (by decide) (by decide) (by decide)⟩

/-- C15 (counterexamples): the claimed length formula fails on returned pages.
With `page = 0` and `limit = -5` the three-case store returns an empty page
with total 3, while the formula gives -5; with `page = 4294967297` and
`limit = 4294967296` the product `(page-1)*limit` is `2^64`, above the total,
yet the wrapped start index is 0 and the page returned holds all three
cases. -/
theorem C15_length_formula_counterexample :
    (ListCases listCaseService 0 (-5) "" = some ([], 3, none) ∧
      ((([] : List Case).length : Int) ≠
        min (-5) (max 0 ((expectedTotal listCaseService "" : Int) - (0 - 1) * (-5))))) ∧
    (ListCases listCaseService 4294967297 4294967296 "" =
        some ([listCase1, listCase2, listCase3], 3, none) ∧
      (expectedTotal listCaseService "" : Int) ≤ (4294967297 - 1) * 4294967296 ∧
      (([listCase1, listCase2, listCase3].length : Int) ≠
        min 4294967296
          (max 0 ((expectedTotal listCaseService "" : Int) -
            (4294967297 - 1) * 4294967296)))) := by
  refine ⟨⟨by decide, by decide⟩, by decide, by decide, by decide⟩

/-- C15 (amended): for `page >= 1` and `limit >= 0` whose end index
`(page-1)*limit + limit` stays inside the 64-bit range, `ListCases` returns,
with a nil error and the true total K, a page of exactly
`min(limit, max(0, K - (page-1)*limit))` cases; in particular the page is
empty when `(page-1)*limit >= K`. -/
theorem C15_page_length (s : CaseService) (page limit : Int) (status : String)
    (hp : 1 ≤ page) (hl : 0 ≤ limit)
    (hov : (page - 1) * limit + limit < 9223372036854775808) :
    ∃ cases, ListCases s page limit status =
        some (cases, (expectedTotal s status : Int), none) ∧
      (cases.length : Int) =
        min limit (max 0 ((expectedTotal s status : Int) - (page - 1) * limit)) ∧
      ((expectedTotal s status : Int) ≤ (page - 1) * limit → cases = []) := by
  obtain ⟨cases, hc, hlen⟩ := ListCases_of_valid s page limit status hp hl hov
  refine ⟨cases, hc, hlen, fun hge => ?_⟩
  have h0 : (cases.length : Int) = 0 := by
    rw [hlen]
    generalize (page - 1) * limit = P at hge
    omega
  exact List.length_eq_zero.1 (by exact_mod_cast h0)

/-- Witness for C15 (amended): the three pages of limit 2 over the
three-case store hold 2, 1 and 0 cases. -/
theorem C15_page_length_witness :
    (∃ cases, ListCases listCaseService 1 2 "" = some (cases, 3, none) ∧
      (cases.length : Int) = 2) ∧
    (∃ cases, ListCases listCaseService 2 2 "" = some (cases, 3, none) ∧
      (cases.length : Int) = 1) ∧
    (∃ cases, ListCases listCaseService 3 2 "" = some (cases, 3, none) ∧
      (cases.length : Int) = 0) := by
  refine ⟨?_, ?_, ?_⟩
  · obtain ⟨cases, h1, h2, _⟩ :=
      C15_page_length listCaseService 1 2 "" (by decide) (by decide) (by decide)
    exact ⟨cases, h1, h2⟩
  · obtain ⟨cases, h1, h2, _⟩ :=
      C15_page_length listCaseService 2 2 "" (by decide) (by decide) (by decide)
    exact ⟨cases, h1, h2⟩
  · obtain ⟨cases, h1, h2, _⟩ :=
      C15_page_length listCaseService 3 2 "" (by decide) (by decide) (by decide)
    exact ⟨cases, h1, h2⟩

/-- With a page below 1 and a positive limit (inside the 64-bit range) the
start index is negative and the slice expression panics, on every store. -/
theorem ListCases_panics_of_page_below_one (s : CaseService) (page limit : Int)
    (status : String) (hp : page ≤ 0) (hl : 1 ≤ limit)
    (hlo : -9223372036854775808 ≤ (page - 1) * limit) :
    ListCases s page limit status = none := by
  have hneg : (page - 1) * limit ≤ -1 := by nlinarith
  have hle : (page - 1) * limit ≤ page - 1 := by nlinarith
  have hstart : wrapInt (wrapInt (page - 1) * limit) = (page - 1) * limit := by
    rw [wrapInt_of_inRange (page - 1) (by omega) (by omega)]
    exact wrapInt_of_inRange _ hlo (by omega)
  unfold ListCases
  simp only [hstart]
  generalize (page - 1) * limit = P at hneg
  have hnot : ¬ P ≥ ((filterCases s status).length : Int) := by omega
  rw [if_neg hnot]
  have hsl : ∀ high : Int, sliceRange (filterCases s status) P high = none := by
    intro high
    unfold sliceRange
    rw [if_neg]
    omega
  simp only [hsl]

/-- C16 (evaluation at the failing inputs): on the three-case store
`ListCases(0, 10, "")` uses the slice bounds `[-10:0]` and
`ListCases(1, -1, "")` uses `[0:-1]`; both panic instead of returning. -/
theorem C16_ListCases_panics :
    ListCases listCaseService 0 10 "" = none ∧
    ListCases listCaseService 1 (-1) "" = none := by
  constructor <;> decide

/-- Under the store invariant the stored cases are pairwise distinct. -/
theorem cases_nodup_of_invariant (s : CaseService) (hinv : s.Invariant) :
    (s.cases.map Prod.snd).Nodup := by
  obtain ⟨huniq, hid⟩ := hinv
  have hmap : s.cases.map Prod.fst = (s.cases.map Prod.snd).map Case.ID := by
    rw [List.map_map]
    apply List.map_congr_left
    intro e he
    exact (hid e he).symm
  unfold KeysUnique at huniq
  rw [hmap] at huniq
  exact List.Nodup.of_map Case.ID huniq

/-- An entry of a written map is the written entry or an entry of the old
map. -/
theorem mem_mapStore {α : Type} (m : List (String × α)) (k : String) (v : α)
    (e : String × α) (he : e ∈ mapStore m k v) : e = (k, v) ∨ e ∈ m := by
  induction m with
  | nil => simpa [mapStore] using he
  | cons e0 rest ih =>
    obtain ⟨k', v'⟩ := e0
    by_cases hk : k' = k
    · simp only [mapStore, hk, if_true, List.mem_cons] at he
      rcases he with h | h
      · exact Or.inl h
      · exact Or.inr (List.mem_cons_of_mem _ h)
    · simp only [mapStore, hk, if_false, List.mem_cons] at he
      rcases he with h | h
      · exact Or.inr (by simp [h])
      · rcases ih h with h2 | h2
        · exact Or.inl h2
        · exact Or.inr (List.mem_cons_of_mem _ h2)

/-- A key of a written map is the written key or a key of the old map. -/
theorem mem_keys_mapStore {α : Type} (m : List (String × α)) (k k0 : String) (v : α)
    (h : k0 ∈ (mapStore m k v).map Prod.fst) : k0 = k ∨ k0 ∈ m.map Prod.fst := by
  obtain ⟨e, he, rfl⟩ := List.mem_map.1 h
  rcases mem_mapStore m k v e he with h1 | h1
  · exact Or.inl (by rw [h1])
  · exact Or.inr (List.mem_map_of_mem Prod.fst h1)

/-- A write keeps the map at one entry per key. -/
theorem mapStore_keysUnique {α : Type} (m : List (String × α)) (k : String) (v : α)
    (huniq : KeysUnique m) : KeysUnique (mapStore m k v) := by
  induction m with
  | nil => simp [mapStore, KeysUnique]
  | cons e0 rest ih =>
    obtain ⟨k', v'⟩ := e0
    have hu : k' ∉ rest.map Prod.fst ∧ KeysUnique rest := by
      simpa [KeysUnique] using huniq
    by_cases hk : k' = k
    · subst hk
      simpa [mapStore, KeysUnique] using huniq
    · have hnot : k' ∉ (mapStore rest k v).map Prod.fst := by
        intro hmem
        rcases mem_keys_mapStore rest k k' v hmem with h1 | h1
        · exact hk h1
        · exact hu.1 h1
      have hih := ih hu.2
      unfold KeysUnique at hih ⊢
      simp only [mapStore, hk, if_false, List.map_cons, List.nodup_cons]
      exact ⟨hnot, hih⟩

/-- A delete keeps the map at one entry per key. -/
theorem mapDelete_keysUnique {α : Type} (m : List (String × α)) (k : String)
    (huniq : KeysUnique m) : KeysUnique (mapDelete m k) := by
  unfold KeysUnique at huniq ⊢
  exact huniq.sublist ((List.filter_sublist m).map Prod.fst)

/-- The empty store satisfies the store invariant. -/
theorem NewCaseService_invariant : NewCaseService.Invariant := by
  simp [NewCaseService, CaseService.Invariant, KeysUnique]

/-- `CreateCase` preserves the store invariant. -/
theorem CreateCase_invariant (s : CaseService) (c : Case) (hinv : s.Invariant) :
    (CreateCase s c).1.Invariant := by
  unfold CreateCase
  cases h : mapLookup s.cases c.ID with
  | some c0 => exact hinv
  | none =>
    refine ⟨mapStore_keysUnique s.cases c.ID c hinv.1, fun e he => ?_⟩
    rcases mem_mapStore s.cases c.ID c e he with h1 | h1
    · rw [h1]
    · exact hinv.2 e h1

/-- `UpdateCase` preserves the store invariant. -/
theorem UpdateCase_invariant (s : CaseService) (now : Time) (c : Case) (hinv : s.Invariant) :
    (UpdateCase s now c).1.Invariant := by
  unfold UpdateCase
  cases h : mapLookup s.cases c.ID with
  | none => exact hinv
  | some c0 =>
    refine ⟨mapStore_keysUnique s.cases c.ID _ hinv.1, fun e he => ?_⟩
    rcases mem_mapStore s.cases c.ID _ e he with h1 | h1
    · rw [h1]
    · exact hinv.2 e h1

/-- `DeleteCase` preserves the store invariant. -/
theorem DeleteCase_invariant (s : CaseService) (id : String) (hinv : s.Invariant) :
    (DeleteCase s id).1.Invariant := by
  unfold DeleteCase
  cases h : mapLookup s.cases id with
  | none => exact hinv
  | some c0 =>
    refine ⟨mapDelete_keysUnique s.cases id hinv.1, fun e he => ?_⟩
    exact hinv.2 e (List.mem_of_mem_filter he)

/-- C17: every case in a page returned by `ListCases` is currently stored
(`GetCase` of its ID returns it), appears at most once in the page and, when
the status filter is non-empty, has exactly the status of the filter. The
store is a map whose keys are the IDs of the cases they hold. -/
theorem C17_page_members (s : CaseService) (page limit : Int) (status : String)
    (cases : List Case) (total : Int) (err : Option String)
    (hinv : s.Invariant)
    (hres : ListCases s page limit status = some (cases, total, err)) :
    (∀ c ∈ cases, GetCase s c.ID = (some c, none)) ∧
    cases.Nodup ∧
    (status ≠ "" → ∀ c ∈ cases, c.Status = status) := by
  have hsub : cases.Sublist (filterCases s status) :=
    (ListCases_result s page limit status _ hres).1
  rw [filterCases_eq] at hsub
  have hmem : ∀ c ∈ cases, ∃ e ∈ s.cases,
      (status = "" ∨ e.2.Status = status) ∧ e.2 = c := by
    intro c hc
    have hc2 := hsub.subset hc
    simp only [List.mem_map, List.mem_filter, decide_eq_true_eq] at hc2
    obtain ⟨e, ⟨he, hp⟩, rfl⟩ := hc2
    exact ⟨e, he, hp, rfl⟩
  refine ⟨?_, ?_, ?_⟩
  · intro c hc
    obtain ⟨e, he, _, rfl⟩ := hmem c hc
    obtain ⟨k, v⟩ := e
    have hk : v.ID = k := hinv.2 (k, v) he
    have hl : mapLookup s.cases k = some v := mapLookup_of_mem s.cases k v hinv.1 he
    simp [GetCase, hk, hl]
  · have hfull : ((s.cases.filter
        (fun e => decide (status = "" ∨ e.2.Status = status))).map Prod.snd).Nodup :=
      (cases_nodup_of_invariant s hinv).sublist ((List.filter_sublist s.cases).map Prod.snd)
    exact hfull.sublist hsub
  · intro hne c hc
    obtain ⟨e, _, hp, rfl⟩ := hmem c hc
    rcases hp with h0 | h1
    · exact absurd h0 hne
    · exact h1

/-- Witness for C17: the PENDING page of the three-case store. -/
theorem C17_page_members_witness :
    (∀ c ∈ [listCase1, listCase3], GetCase listCaseService c.ID = (some c, none)) ∧
    [listCase1, listCase3].Nodup ∧
    ("PENDING" ≠ "" → ∀ c ∈ [listCase1, listCase3], c.Status = "PENDING") :=
  C17_page_members listCaseService 1 10 "PENDING" [listCase1, listCase3] 2 none
    (by decide) (by decide)

/-! ## C18: the case factory -/

/-- Uploading a document whose ID is absent from the map returns no error,
stores the document under its ID and keeps every other entry. -/
theorem UploadDocument_of_absent (s : DocumentService) (d : Document)
    (habs : mapLookup s.documents d.ID = none) :
    (UploadDocument s d).2 = none ∧
    mapLookup (UploadDocument s d).1.documents d.ID = some d ∧
    ∀ id : String, id ≠ d.ID →
      mapLookup (UploadDocument s d).1.documents id = mapLookup s.documents id := by
  unfold UploadDocument
  rw [habs]
  exact ⟨rfl, mapLookup_mapStore_self s.documents d.ID d,
    fun id hid => mapLookup_mapStore_of_ne s.documents d.ID id d hid⟩

/-- C19: a document built by `NewDocument` from the content bytes and stored
by a successful `UploadDocument` is returned by `GetDocument` of its id with
the same file name, the same file type, the same content bytes and a
`FileSize` equal to the number of content bytes. -/
theorem C19_document_round_trip (s : DocumentService) (id : String) (now : Time)
    (caseID fileName fileType : String) (content : List Nat)
    (uploadedBy description : String)
    (hup : (UploadDocument s
      (NewDocument id now caseID fileName fileType content uploadedBy description)).2 = none) :
    ∃ d, GetDocument (UploadDocument s
        (NewDocument id now caseID fileName fileType content uploadedBy description)).1 id =
        (some d, none) ∧
      d.FileName = fileName ∧ d.FileType = fileType ∧ d.Content = content ∧
      d.FileSize = (content.length : Int) := by
  have habs : mapLookup s.documents
      (NewDocument id now caseID fileName fileType content uploadedBy description).ID = none := by
    cases h : mapLookup s.documents
        (NewDocument id now caseID fileName fileType content uploadedBy description).ID with
    | none => rfl
    | some d0 => simp [UploadDocument, h] at hup
  obtain ⟨_, hself, _⟩ := UploadDocument_of_absent s _ habs
  refine ⟨NewDocument id now caseID fileName fileType content uploadedBy description,
    ?_, rfl, rfl, rfl, rfl⟩
  have hid : (NewDocument id now caseID fileName fileType content uploadedBy description).ID =
      id := rfl
  rw [hid] at hself
  simp [GetDocument, hself]

/-- Witness for C19: the PDF document of the tests, uploaded to an empty
store, is read back with its 11 content bytes. -/
theorem C19_document_round_trip_witness :
    ∃ d, GetDocument fixtureDocumentService "doc-document.pdf" = (some d, none) ∧
      d.FileName = "document.pdf" ∧ d.FileType = ".pdf" ∧ d.Content = pdfContent ∧
      d.FileSize = 11 :=
  C19_document_round_trip NewDocumentService "doc-document.pdf" ⟨0⟩ "test-case-id"
    "document.pdf" ".pdf" pdfContent "test-user" "Test document description" (by decide)

/-- C20: `UploadDocument` fails with "document already exists" exactly when a
document is already stored under the same ID, and then the store is left
unchanged; otherwise it returns no error, the new document is stored under its
ID and every other identifier keeps its entry. -/
theorem C20_UploadDocument_duplicate (s : DocumentService) (d : Document) :
    ((UploadDocument s d).2 = some "document already exists" ↔
      ∃ d0, mapLookup s.documents d.ID = some d0) ∧
    ((∃ d0, mapLookup s.documents d.ID = some d0) → (UploadDocument s d).1 = s) ∧
    (mapLookup s.documents d.ID = none →
      (UploadDocument s d).2 = none ∧
      mapLookup (UploadDocument s d).1.documents d.ID = some d ∧
      ∀ id : String, id ≠ d.ID →
        mapLookup (UploadDocument s d).1.documents id = mapLookup s.documents id) := by
  cases h : mapLookup s.documents d.ID with
  | some d0 => simp [UploadDocument, h]
  | none =>
    have hab := UploadDocument_of_absent s d h
    refine ⟨?_, ?_, fun _ => hab⟩
    · rw [hab.1]
      simp
    · rintro ⟨d0, hd0⟩
      cases hd0

/-- Witness for C20: uploading `fixtureDocument` a second time, with other
content, fails and the stored document keeps its content. -/
theorem C20_UploadDocument_duplicate_witness :
    (UploadDocument fixtureDocumentService { fixtureDocument with Content := [] }).2 =
      some "document already exists" ∧
    (UploadDocument fixtureDocumentService { fixtureDocument with Content := [] }).1 =
      fixtureDocumentService :=
  ⟨(C20_UploadDocument_duplicate fixtureDocumentService
      { fixtureDocument with Content := [] }).1.2 ⟨fixtureDocument, rfl⟩,
   (C20_UploadDocument_duplicate fixtureDocumentService
      { fixtureDocument with Content := [] }).2.1 ⟨fixtureDocument, rfl⟩⟩

/-! ## C21, C22: deleting and listing documents -/

/-- C21: `GetDocument` and `DeleteDocument` return the error "document not
found" exactly when the id is absent from the map and no error when it is
present; after a successful `DeleteDocument` a `GetDocument` of the same id
fails with "document not found" and every other id still reads the document
it held; a failed `DeleteDocument` leaves the store unchanged. -/
theorem C21_document_not_found_iff_absent (s : DocumentService) (id : String) :
    (((GetDocument s id).2 = some "document not found" ↔ mapLookup s.documents id = none) ∧
      ((GetDocument s id).2 = none ↔ ∃ d0, mapLookup s.documents id = some d0)) ∧
    (((DeleteDocument s id).2 = some "document not found" ↔
        mapLookup s.documents id = none) ∧
      ((DeleteDocument s id).2 = none ↔ ∃ d0, mapLookup s.documents id = some d0)) ∧
    ((DeleteDocument s id).2 = none →
      GetDocument (DeleteDocument s id).1 id = (none, some "document not found") ∧
      ∀ id0 : String, id0 ≠ id →
        GetDocument (DeleteDocument s id).1 id0 = GetDocument s id0) ∧
    ((DeleteDocument s id).2 = some "document not found" → (DeleteDocument s id).1 = s) := by
  refine ⟨?_, ?_, ?_, ?_⟩
  · cases h : mapLookup s.documents id <;> simp [GetDocument, h]
  · cases h : mapLookup s.documents id <;> simp [DeleteDocument, h]
  · cases h : mapLookup s.documents id with
    | none => simp [DeleteDocument, h]
    | some d0 =>
      intro _
      refine ⟨?_, fun id0 hne => ?_⟩
      · simp [DeleteDocument, h, GetDocument, mapLookup_mapDelete_self]
      · simp [DeleteDocument, h, GetDocument, mapLookup_mapDelete_of_ne s.documents id id0 hne]
  · cases h : mapLookup s.documents id <;> simp [DeleteDocument, h]

/-- Witness for C21 on the three-document store: `doc-1` is deleted and no
longer found while `doc-2` is still returned; deleting `nonexistent-id` fails
and changes nothing. -/
theorem C21_document_not_found_iff_absent_witness :
    GetDocument (DeleteDocument listDocumentService "doc-1").1 "doc-1" =
      (none, some "document not found") ∧
    GetDocument (DeleteDocument listDocumentService "doc-1").1 "doc-2" =
      (some listDoc2, none) ∧
    (DeleteDocument listDocumentService "nonexistent-id").2 = some "document not found" ∧
    (DeleteDocument listDocumentService "nonexistent-id").1 = listDocumentService :=
  have h1 := C21_document_not_found_iff_absent listDocumentService "doc-1"
  have h2 := C21_document_not_found_iff_absent listDocumentService "nonexistent-id"
  ⟨(h1.2.2.1 (by decide)).1,
   ((h1.2.2.1 (by decide)).2 "doc-2" (by decide)).trans (by decide),
   h2.2.1.1.2 (by decide),
   h2.2.2.2 (h2.2.1.1.2 (by decide))⟩

/-- The loop of `GetDocumentsByCaseID` started from `init` appends the matching
documents in visiting order. -/
theorem documentsByCase_foldl (l : List (String × Document)) (caseID : String)
    (init : List Document) :
    l.foldl (fun documents e => if e.2.CaseID = caseID then documents ++ [e.2] else documents)
        init =
      init ++ (l.filter (fun e => decide (e.2.CaseID = caseID))).map Prod.snd := by
  induction l generalizing init with
  | nil => simp
  | cons e rest ih =>
    by_cases hp : e.2.CaseID = caseID
    · simp [List.foldl_cons, hp, ih]
    · simp [List.foldl_cons, hp, ih]

/-- The result of `GetDocumentsByCaseID` is a filter followed by a projection,
with a nil error. -/
theorem GetDocumentsByCaseID_eq (s : DocumentService) (caseID : String) :
    GetDocumentsByCaseID s caseID =
      ((s.documents.filter (fun e => decide (e.2.CaseID = caseID))).map Prod.snd, none) := by
  simp [GetDocumentsByCaseID, documentsByCase_foldl]

/-- In a map whose keys are the identifiers of its values, the values are
pairwise distinct. -/
theorem values_nodup_of_keyed {α : Type} (m : List (String × α)) (key : α → String)
    (huniq : KeysUnique m) (hid : ∀ e ∈ m, key e.2 = e.1) : (m.map Prod.snd).Nodup := by
  have hmap : m.map Prod.fst = (m.map Prod.snd).map key := by
    rw [List.map_map]
    apply List.map_congr_left
    intro e he
    exact (hid e he).symm
  unfold KeysUnique at huniq
  rw [hmap] at huniq
  exact List.Nodup.of_map key huniq

/-- C22: for every store and every `caseId`, `GetDocumentsByCaseID` returns a
nil error; when no stored document references `caseId` the result has length
0; and, the store being a map keyed by document ID, a document is in the
result if and only if it is stored (`GetDocument` of its ID returns it) and
its `CaseID` equals `caseId`, each such document appearing once. -/
theorem C22_documents_by_case (s : DocumentService) (caseID : String) :
    (GetDocumentsByCaseID s caseID).2 = none ∧
    ((∀ e ∈ s.documents, e.2.CaseID ≠ caseID) →
      (GetDocumentsByCaseID s caseID).1.length = 0) ∧
    (s.Invariant →
      (∀ d : Document, d ∈ (GetDocumentsByCaseID s caseID).1 ↔
        (GetDocument s d.ID = (some d, none) ∧ d.CaseID = caseID)) ∧
      (GetDocumentsByCaseID s caseID).1.Nodup) := by
  rw [GetDocumentsByCaseID_eq]
  refine ⟨rfl, ?_, ?_⟩
  · intro hnone
    have hfil : s.documents.filter (fun e => decide (e.2.CaseID = caseID)) = [] := by
      rw [List.filter_eq_nil_iff]
      intro e he
      simpa using hnone e he
    simp [hfil]
  · intro hinv
    refine ⟨fun d => ⟨?_, ?_⟩, ?_⟩
    · intro hd
      simp only [List.mem_map, List.mem_filter, decide_eq_true_eq] at hd
      obtain ⟨e, ⟨he, hc⟩, rfl⟩ := hd
      obtain ⟨k, v⟩ := e
      have hk : v.ID = k := hinv.2 (k, v) he
      have hl : mapLookup s.documents k = some v :=
        mapLookup_of_mem s.documents k v hinv.1 he
      exact ⟨by simp [GetDocument, hk, hl], hc⟩
    · rintro ⟨hget, hc⟩
      have hl : mapLookup s.documents d.ID = some d := by
        unfold GetDocument at hget
        cases h : mapLookup s.documents d.ID with
        | none => rw [h] at hget; cases hget
        | some d0 => rw [h] at hget; cases hget; rfl
      have hmem := mem_of_mapLookup s.documents d.ID d hl
      simp only [List.mem_map, List.mem_filter, decide_eq_true_eq]
      exact ⟨(d.ID, d), ⟨hmem, hc⟩, rfl⟩
    · exact (values_nodup_of_keyed s.documents Document.ID hinv.1 hinv.2).sublist
        ((List.filter_sublist s.documents).map Prod.snd)

/-- Witness for C22 on the three-document store: `case-1` has its two
documents, each once, and the unknown `case-3` has none. -/
theorem C22_documents_by_case_witness :
    (GetDocumentsByCaseID listDocumentService "case-3").1.length = 0 ∧
    (listDoc2 ∈ (GetDocumentsByCaseID listDocumentService "case-1").1) ∧
    (GetDocumentsByCaseID listDocumentService "case-1").1.Nodup :=
  ⟨(C22_documents_by_case listDocumentService "case-3").2.1 (by decide),
   (((C22_documents_by_case listDocumentService "case-1").2.2 (by decide)).1 listDoc2).2
     ⟨by decide, by decide⟩,
   ((C22_documents_by_case listDocumentService "case-1").2.2 (by decide)).2⟩

/-! ## C23: deleting a case keeps its documents -/

/-- C23: when the package-level `DeleteCase` handler succeeds (status 200) the
case is gone from the case store while the document handler and its store are
the ones from before the call, so every document whose `CaseID` equals the
deleted id is still returned by `GetDocument` and is still in the result of
`GetDocumentsByCaseID` for that id. -/
theorem C23_delete_case_keeps_documents (app : App) (id : String)
    (hok : (app.DeleteCase id).2.StatusCode = 200) :
    Mastercom.GetCase (app.DeleteCase id).1.caseHandler.caseService id =
      (none, some "case not found") ∧
    (app.DeleteCase id).1.documentHandler = app.documentHandler ∧
    ∀ (documentID : String) (d : Document),
      GetDocument app.documentHandler.documentService documentID = (some d, none) →
      d.CaseID = id →
      GetDocument (app.DeleteCase id).1.documentHandler.documentService documentID =
        (some d, none) ∧
      d ∈ (GetDocumentsByCaseID (app.DeleteCase id).1.documentHandler.documentService id).1 := by
  refine ⟨?_, rfl, ?_⟩
  · unfold App.DeleteCase CaseHandler.DeleteCase at hok ⊢
    by_cases hid : id = ""
    · simp [hid] at hok
    · cases h : mapLookup app.caseHandler.caseService.cases id with
      | none => simp [hid, Mastercom.DeleteCase, h] at hok
      | some c0 =>
        simp [hid, Mastercom.DeleteCase, h, Mastercom.GetCase, mapLookup_mapDelete_self]
  · intro documentID d hget hcase
    refine ⟨hget, ?_⟩
    have hl : mapLookup app.documentHandler.documentService.documents documentID = some d := by
      unfold GetDocument at hget
      cases h : mapLookup app.documentHandler.documentService.documents documentID with
      | none => rw [h] at hget; cases hget
      | some d0 => rw [h] at hget; cases hget; rfl
    have hmem := mem_of_mapLookup _ documentID d hl
    show d ∈ (GetDocumentsByCaseID app.documentHandler.documentService id).1
    rw [GetDocumentsByCaseID_eq]
    simp only [List.mem_map, List.mem_filter, decide_eq_true_eq]
    exact ⟨(documentID, d), ⟨hmem, hcase⟩, rfl⟩

/-- Witness for C23: `case-1` is deleted from the running application; its
document `doc-1` is still returned by both document reads. -/
theorem C23_delete_case_keeps_documents_witness :
    (listApp.DeleteCase "case-1").2.StatusCode = 200 ∧
    Mastercom.GetCase (listApp.DeleteCase "case-1").1.caseHandler.caseService "case-1" =
      (none, some "case not found") ∧
    GetDocument (listApp.DeleteCase "case-1").1.documentHandler.documentService "doc-1" =
      (some listDoc1, none) ∧
    listDoc1 ∈
      (GetDocumentsByCaseID (listApp.DeleteCase "case-1").1.documentHandler.documentService
        "case-1").1 :=
  have h := C23_delete_case_keeps_documents listApp "case-1" (by decide)
  ⟨by decide, h.1, (h.2.2 "doc-1" listDoc1 (by decide) (by decide)).1,
   (h.2.2 "doc-1" listDoc1 (by decide) (by decide)).2⟩

/-! ## C24: identifier uniqueness in reachable stores -/

/-- The empty document store satisfies the store invariant. -/
theorem NewDocumentService_invariant : NewDocumentService.Invariant := by
  simp [NewDocumentService, DocumentService.Invariant, KeysUnique]

/-- `UploadDocument` preserves the store invariant. -/
theorem UploadDocument_invariant (s : DocumentService) (d : Document) (hinv : s.Invariant) :
    (UploadDocument s d).1.Invariant := by
  unfold UploadDocument
  cases h : mapLookup s.documents d.ID with
  | some d0 => exact hinv
  | none =>
    refine ⟨mapStore_keysUnique s.documents d.ID d hinv.1, fun e he => ?_⟩
    rcases mem_mapStore s.documents d.ID d e he with h1 | h1
    · rw [h1]
    · exact hinv.2 e h1

/-- `DeleteDocument` preserves the store invariant. -/
theorem DeleteDocument_invariant (s : DocumentService) (id : String) (hinv : s.Invariant) :
    (DeleteDocument s id).1.Invariant := by
  unfold DeleteDocument
  cases h : mapLookup s.documents id with
  | none => exact hinv
  | some d0 =>
    refine ⟨mapDelete_keysUnique s.documents id hinv.1, fun e he => ?_⟩
    exact hinv.2 e (List.mem_of_mem_filter he)

/-- Every reachable case store satisfies the store invariant. -/
theorem caseService_invariant_of_reachable (s : CaseService) (hr : s.Reachable) :
    s.Invariant := by
  induction hr with
  | empty => exact NewCaseService_invariant
  | create s c _ ih => exact CreateCase_invariant s c ih
  | update s now c _ ih => exact UpdateCase_invariant s now c ih
  | delete s id _ ih => exact DeleteCase_invariant s id ih

/-- Every reachable document store satisfies the store invariant. -/
theorem documentService_invariant_of_reachable (s : DocumentService) (hr : s.Reachable) :
    s.Invariant := by
  induction hr with
  | empty => exact NewDocumentService_invariant
  | upload s d _ ih => exact UploadDocument_invariant s d ih
  | delete s id _ ih => exact DeleteDocument_invariant s id ih

/-- In a map whose keys are the identifiers of its values: every key reads a
value with that identifier, no two entries share an identifier, and there are
as many entries as distinct identifiers. -/
theorem keyed_map_facts {α : Type} (m : List (String × α)) (key : α → String)
    (huniq : KeysUnique m) (hid : ∀ e ∈ m, key e.2 = e.1) :
    (∀ (k : String) (v : α), mapLookup m k = some v → key v = k) ∧
    (m.map (fun e => key e.2)).Nodup ∧
    m.length = (m.map (fun e => key e.2)).toFinset.card := by
  have hmap : m.map (fun e => key e.2) = m.map Prod.fst :=
    List.map_congr_left (fun e he => hid e he)
  have hnd : (m.map (fun e => key e.2)).Nodup := by
    rw [hmap]
    exact huniq
  refine ⟨fun k v hl => hid (k, v) (mem_of_mapLookup m k v hl), hnd, ?_⟩
  rw [List.toFinset_card_of_nodup hnd, List.length_map]

/-- C24: in every state of the case store reachable from the empty store
through `CreateCase`, `UpdateCase` and `DeleteCase`, and in every state of the
document store reachable through `UploadDocument` and `DeleteDocument`, the
store has one entry per key, each key reads an entity whose ID is that key, no
two stored entities share an ID, and the number of stored entities equals the
number of distinct IDs. -/
theorem C24_identifier_uniqueness :
    (∀ s : CaseService, s.Reachable →
      KeysUnique s.cases ∧
      (∀ (k : String) (c : Case), mapLookup s.cases k = some c → c.ID = k) ∧
      (s.cases.map (fun e => e.2.ID)).Nodup ∧
      s.cases.length = (s.cases.map (fun e => e.2.ID)).toFinset.card) ∧
    (∀ s : DocumentService, s.Reachable →
      KeysUnique s.documents ∧
      (∀ (k : String) (d : Document), mapLookup s.documents k = some d → d.ID = k) ∧
      (s.documents.map (fun e => e.2.ID)).Nodup ∧
      s.documents.length = (s.documents.map (fun e => e.2.ID)).toFinset.card) := by
  constructor
  · intro s hr
    have hinv := caseService_invariant_of_reachable s hr
    exact ⟨hinv.1, keyed_map_facts s.cases Case.ID hinv.1 hinv.2⟩
  · intro s hr
    have hinv := documentService_invariant_of_reachable s hr
    exact ⟨hinv.1, keyed_map_facts s.documents Document.ID hinv.1 hinv.2⟩

/-- Witness for C24: the store reached by creating `fixtureCase`, creating it
again (refused), updating it and creating `otherCase` holds two cases with two
distinct IDs; the three-document store holds three. -/
theorem C24_identifier_uniqueness_witness :
    ((CreateCase (UpdateCase (CreateCase (CreateCase NewCaseService fixtureCase).1
        fixtureCase).1 laterTime updatedCase).1 otherCase).1.cases.map
      (fun e => e.2.ID)).Nodup ∧
    listDocumentService.documents.length =
      (listDocumentService.documents.map (fun e => e.2.ID)).toFinset.card :=
  ⟨(C24_identifier_uniqueness.1 _
      (.create _ otherCase (.update _ laterTime updatedCase
        (.create _ fixtureCase (.create _ fixtureCase .empty))))).2.2.1,
   (C24_identifier_uniqueness.2 listDocumentService
      (.upload _ listDoc3 (.upload _ listDoc2 (.upload _ listDoc1 .empty)))).2.2.2⟩

/-! ## C25, C28, C30: independence of the items of a batch -/

/-- C25: for any two outcome lists `a` and `b`, the `OutcomeResponses` of
`ProcessWebhook` on `a ++ b` are those on `a` followed by those on `b`; and the
entry of an outcome placed anywhere in any batch is the single entry of the
batch made of that outcome alone. -/
theorem C25_items_processed_independently (s : EthocaWebhookService) (ctx : Context)
    (a b : List AlertOutcome) :
    (∃ ra rb,
      (ProcessWebhook s ctx { Outcomes := a }).1 = some { OutcomeResponses := ra } ∧
      (ProcessWebhook s ctx { Outcomes := b }).1 = some { OutcomeResponses := rb } ∧
      (ProcessWebhook s ctx { Outcomes := a ++ b }).1 =
        some { OutcomeResponses := ra ++ rb }) ∧
    (∀ o : AlertOutcome, ∃ u r,
      (ProcessWebhook s ctx { Outcomes := [o] }).1 = some { OutcomeResponses := [u] } ∧
      (ProcessWebhook s ctx { Outcomes := a ++ o :: b }).1 = some { OutcomeResponses := r } ∧
      r.get? a.length = some u) := by
  simp only [ProcessWebhook_eq]
  refine ⟨⟨a.map (statusFor s ctx), b.map (statusFor s ctx), rfl, rfl, ?_⟩, fun o => ?_⟩
  · simp
  · refine ⟨statusFor s ctx o, (a ++ o :: b).map (statusFor s ctx), rfl, rfl, ?_⟩
    rw [List.get?_eq_getElem?, List.map_append, List.getElem?_append_right (by simp)]
    simp

/-- C28: in every acknowledgment of `ProcessWebhook`, the entry of an outcome
that violates both rules (REFUNDED with refund amount `<= 0` and STOPPED with
amount stopped `<= 0`) is the FAILURE entry whose `Details` is the refund
message; and an entry whose `Details` is the stopped message belongs to an
outcome that does not violate the refund rule (and violates the stopped
rule). -/
theorem C28_refund_rule_checked_first (s : EthocaWebhookService) (ctx : Context)
    (webhook : EthocaWebhook) (ack : OutcomeAcknowledgement) (i : Nat)
    (o : AlertOutcome) (u : StatusUpdate)
    (hack : (ProcessWebhook s ctx webhook).1 = some ack)
    (ho : webhook.Outcomes.get? i = some o) (hu : ack.OutcomeResponses.get? i = some u) :
    (violatesRefundRule o → violatesStoppedRule o →
      u = failureUpdate o
        "refund amount must be greater than 0 when refund status is REFUNDED") ∧
    (∀ e : Error, u.Errors = some { Error := [e] } →
      e.Details = some "amount stopped must be greater than 0 when outcome is STOPPED" →
      ¬ violatesRefundRule o ∧ violatesStoppedRule o) := by
  rw [ProcessWebhook_eq] at hack
  simp only [Option.some.injEq] at hack
  subst hack
  simp only [List.get?_eq_getElem?, List.getElem?_map] at ho hu
  rw [ho] at hu
  simp only [Option.map_some', Option.some.injEq] at hu
  subst hu
  constructor
  · intro hr _
    apply statusFor_of_invalid
    simp only [validateOutcome]
    exact if_pos hr
  · intro e he hd
    by_cases hr : violatesRefundRule o
    · have hv : validateOutcome s o =
          some "refund amount must be greater than 0 when refund status is REFUNDED" := by
        simp only [validateOutcome]
        exact if_pos hr
      rw [statusFor_of_invalid s ctx o _ hv] at he
      simp only [failureUpdate, Option.some.injEq, Errors.mk.injEq, List.cons.injEq,
        and_true] at he
      rw [← he] at hd
      simp at hd
    · refine ⟨hr, ?_⟩
      by_cases hs : violatesStoppedRule o
      · exact hs
      · have hv : validateOutcome s o = none := by
          simp only [validateOutcome]
          exact (if_neg hr).trans (if_neg hs)
        rw [statusFor_of_valid s ctx o hv] at he
        simp at he

/-- Witness for C28: a REFUNDED and STOPPED outcome with both amounts 0 gets
the refund message. -/
theorem C28_refund_rule_checked_first_witness :
    statusFor fixtureService backgroundContext
        (scenarioStoppedZero (scenarioRefundedZero fixtureOutcome)) =
      failureUpdate (scenarioStoppedZero (scenarioRefundedZero fixtureOutcome))
        "refund amount must be greater than 0 when refund status is REFUNDED" :=
  (C28_refund_rule_checked_first fixtureService backgroundContext
    { Outcomes := [scenarioStoppedZero (scenarioRefundedZero fixtureOutcome)] }
    { OutcomeResponses := [statusFor fixtureService backgroundContext
        (scenarioStoppedZero (scenarioRefundedZero fixtureOutcome))] }
    0 (scenarioStoppedZero (scenarioRefundedZero fixtureOutcome))
    (statusFor fixtureService backgroundContext
        (scenarioStoppedZero (scenarioRefundedZero fixtureOutcome)))
    (by decide) (by decide) (by decide)).1 ⟨by decide, by decide⟩ ⟨by decide, by decide⟩

/-- Outcomes that agree on the five deciding fields get the same status
update, whatever the services and contexts. -/
theorem statusFor_of_agree (s1 s2 : EthocaWebhookService) (ctx1 ctx2 : Context)
    (o1 o2 : AlertOutcome) (h : agreeOnDecidingFields o1 o2) :
    statusFor s1 ctx1 o1 = statusFor s2 ctx2 o2 := by
  obtain ⟨hid, hkind, hrs, hrv, hav⟩ := h
  have hv : validateOutcome s1 o1 = validateOutcome s2 o2 := by
    simp only [validateOutcome, hkind, hrs, hrv, hav]
  cases h2 : validateOutcome s2 o2 with
  | none =>
    rw [statusFor_of_valid s1 ctx1 o1 (hv.trans h2), statusFor_of_valid s2 ctx2 o2 h2, hid]
  | some msg =>
    rw [statusFor_of_invalid s1 ctx1 o1 msg (hv.trans h2),
      statusFor_of_invalid s2 ctx2 o2 msg h2]
    simp [failureUpdate, hid]

/-- Lists of outcomes that agree item by item on the five deciding fields get
the same list of status updates. -/
theorem map_statusFor_of_agree (s1 s2 : EthocaWebhookService) (ctx1 ctx2 : Context)
    (l1 l2 : List AlertOutcome) (hagree : List.Forall₂ agreeOnDecidingFields l1 l2) :
    l1.map (statusFor s1 ctx1) = l2.map (statusFor s2 ctx2) := by
  induction hagree with
  | nil => rfl
  | cons h _ ih =>
    simp only [List.map_cons, ih, statusFor_of_agree s1 s2 ctx1 ctx2 _ _ h]

/-- C30: two batches of equal length that agree item by item on AlertID,
Outcome, RefundStatus, Refund.Amount.Value and AmountStopped.Value yield
identical results of `ProcessWebhook`, whatever the other fields of the
outcomes, the request contexts and the service configurations; and every
outcome that passes validation gets the SUCCESS entry, whatever route its
outcome kind selects. -/
theorem C30_depends_on_deciding_fields (s1 s2 : EthocaWebhookService) (ctx1 ctx2 : Context)
    (w1 w2 : EthocaWebhook)
    (hagree : List.Forall₂ agreeOnDecidingFields w1.Outcomes w2.Outcomes) :
    ProcessWebhook s1 ctx1 w1 = ProcessWebhook s2 ctx2 w2 ∧
    (∀ o : AlertOutcome, validateOutcome s1 o = none →
      statusFor s1 ctx1 o = { AlertID := o.AlertID, Status := "SUCCESS", Errors := none }) := by
  refine ⟨?_, fun o hv => statusFor_of_valid s1 ctx1 o hv⟩
  rw [ProcessWebhook_eq, ProcessWebhook_eq]
  rw [map_statusFor_of_agree s1 s2 ctx1 ctx2 _ _ hagree]

/-- Witness for C30: the fixture outcome and its relabelled copy, processed by
services with different configurations under different contexts. -/
theorem C30_depends_on_deciding_fields_witness :
    ProcessWebhook fixtureService backgroundContext { Outcomes := [fixtureOutcome] } =
      ProcessWebhook { config := none } { requestId := some "req-1" }
        { Outcomes := [relabelledOutcome] } :=
  (C30_depends_on_deciding_fields fixtureService { config := none } backgroundContext
    { requestId := some "req-1" } { Outcomes := [fixtureOutcome] }
    { Outcomes := [relabelledOutcome] }
    (List.Forall₂.cons ⟨rfl, rfl, rfl, rfl, rfl⟩ List.Forall₂.nil)).1

/-! ## C26: method and content type of the webhook request -/

/-- C26: `HandleEthocaWebhook` answers every request whose method is not POST
with 405 and code METHOD_NOT_ALLOWED, whatever its content type, and every
POST request whose `Content-Type` is not exactly `application/json` with 400
and code INVALID_CONTENT_TYPE; in both cases the run is the same whatever the
body binds to and the processor is not called. -/
theorem C26_method_then_content_type (h : EthocaWebhookHandler) (requestID : String)
    (req : WebhookRequest) :
    (req.Method ≠ "POST" →
      ∀ body : Except String EthocaWebhook,
        HandleEthocaWebhook h requestID { req with BindJSON := body } =
          { response := some ⟨405, requestID,
              .failure "Method not allowed" "METHOD_NOT_ALLOWED" none⟩
            processorCalls := [] }) ∧
    (req.Method = "POST" → req.ContentType ≠ "application/json" →
      ∀ body : Except String EthocaWebhook,
        HandleEthocaWebhook h requestID { req with BindJSON := body } =
          { response := some ⟨400, requestID,
              .failure "Invalid content type. Expected application/json"
                "INVALID_CONTENT_TYPE" none⟩
            processorCalls := [] }) := by
  constructor
  · intro hm body
    simp [HandleEthocaWebhook, HandleEthocaWebhookWith, hm]
  · intro hm hc body
    simp [HandleEthocaWebhook, HandleEthocaWebhookWith, hm, hc]

/-- Witness for C26: a GET request with a plain-text content type is answered
405, and a POST request with a charset parameter in its content type is
answered 400. -/
theorem C26_method_then_content_type_witness :
    HandleEthocaWebhook fixtureHandler "req-1" getRequest =
      { response := some ⟨405, "req-1",
          .failure "Method not allowed" "METHOD_NOT_ALLOWED" none⟩
        processorCalls := [] } ∧
    HandleEthocaWebhook fixtureHandler "req-1" charsetRequest =
      { response := some ⟨400, "req-1",
          .failure "Invalid content type. Expected application/json"
            "INVALID_CONTENT_TYPE" none⟩
        processorCalls := [] } :=
  ⟨(C26_method_then_content_type fixtureHandler "req-1" getRequest).1 (by decide)
      (.error "EOF"),
   (C26_method_then_content_type fixtureHandler "req-1" charsetRequest).2 rfl (by decide)
      (.ok mixedWebhook)⟩

/-! ## C27, C29: the HTTP boundary of cases and documents -/

/-- C27: at the HTTP boundary a missing entity maps to these status codes. For
a routed request (non-empty path identifier) whose identifier is absent from
the store, GET of the case and GET of the document are answered 404, DELETE of
the case and DELETE of the document are answered 500, and PUT of the case,
with a request body that binds and passes validation so that the store is
consulted, is answered 500. -/
theorem C27_missing_entity_status (hc : CaseHandler) (hd : DocumentHandler) (id : String)
    (req : CreateCaseRequest) (uuid : String) (now updateNow : Time) (hid : id ≠ "") :
    (mapLookup hc.caseService.cases id = none →
      hc.GetCase id = some ⟨404, .error "Case not found" none⟩ ∧
      (hc.DeleteCase id).2 = ⟨500, .error "Failed to delete case" none⟩ ∧
      (hc.validator req = none →
        (hc.UpdateCase id (.ok req) uuid now updateNow).2 =
          ⟨500, .error "Failed to update case" none⟩)) ∧
    (mapLookup hd.documentService.documents id = none →
      hd.GetDocument id = some ⟨404, .error "Document not found" none⟩ ∧
      (hd.DeleteDocument id).2 = ⟨500, .error "Failed to delete document" none⟩) := by
  constructor
  · intro habs
    refine ⟨?_, ?_, ?_⟩
    · simp [CaseHandler.GetCase, hid, Mastercom.GetCase, habs]
    · simp [CaseHandler.DeleteCase, hid, Mastercom.DeleteCase, habs]
    · intro hval
      simp [CaseHandler.UpdateCase, hid, hval, Mastercom.UpdateCase, habs]
  · intro habs
    refine ⟨?_, ?_⟩
    · simp [DocumentHandler.GetDocument, hid, Mastercom.GetDocument, habs]
    · simp [DocumentHandler.DeleteDocument, hid, Mastercom.DeleteDocument, habs]

/-- Witness for C27 on the running application and the identifier
`nonexistent-id`, with the request body of the handler tests. -/
theorem C27_missing_entity_status_witness :
    listCaseHandler.GetCase "nonexistent-id" = some ⟨404, .error "Case not found" none⟩ ∧
    (listCaseHandler.DeleteCase "nonexistent-id").2 =
      ⟨500, .error "Failed to delete case" none⟩ ∧
    (listCaseHandler.UpdateCase "nonexistent-id" (.ok fixtureRequest) "uuid-1" ⟨0⟩
      laterTime).2 = ⟨500, .error "Failed to update case" none⟩ ∧
    listDocumentHandler.GetDocument "nonexistent-id" =
      some ⟨404, .error "Document not found" none⟩ ∧
    (listDocumentHandler.DeleteDocument "nonexistent-id").2 =
      ⟨500, .error "Failed to delete document" none⟩ :=
  have h := C27_missing_entity_status listCaseHandler listDocumentHandler "nonexistent-id"
    fixtureRequest "uuid-1" ⟨0⟩ laterTime (by decide)
  ⟨(h.1 (by decide)).1, (h.1 (by decide)).2.1, (h.1 (by decide)).2.2 rfl,
   (h.2 (by decide)).1, (h.2 (by decide)).2⟩

/-- C29: after every successful HTTP update (status 200) the case stored under
the path id is the case `NewCase` builds from the request body with only its
ID replaced by the path id (and `UpdatedAt` refreshed by the service): its ID
is the path id, its status is "PENDING", its `CreatedAt` is the clock reading
of this request and its document list is empty, whatever was stored before. -/
theorem C29_http_update_resets_case (h : CaseHandler) (caseID : String)
    (bind : Except String CreateCaseRequest) (uuid : String) (now updateNow : Time)
    (hok : (h.UpdateCase caseID bind uuid now updateNow).2.StatusCode = 200) :
    ∃ req c, bind = .ok req ∧
      Mastercom.GetCase (h.UpdateCase caseID bind uuid now updateNow).1.caseService caseID =
        (some c, none) ∧
      c = { NewCase uuid now req with ID := caseID, UpdatedAt := updateNow } ∧
      c.ID = caseID ∧ c.Status = "PENDING" ∧ c.CreatedAt = now ∧ c.Documents = [] := by
  unfold CaseHandler.UpdateCase at hok ⊢
  by_cases hid : caseID = ""
  · simp [hid] at hok
  · cases bind with
    | error e => simp [hid] at hok
    | ok req =>
      cases hval : h.validator req with
      | some err => simp [hid, hval] at hok
      | none =>
        cases hl : mapLookup h.caseService.cases caseID with
        | none => simp [hid, hval, Mastercom.UpdateCase, hl] at hok
        | some c0 =>
          refine ⟨req, { NewCase uuid now req with ID := caseID, UpdatedAt := updateNow },
            rfl, ?_, rfl, rfl, rfl, rfl, rfl⟩
          simp [hid, hval, Mastercom.UpdateCase, hl, Mastercom.GetCase,
            mapLookup_mapStore_self]

/-- Witness for C29: the stored case has status RESOLVED before the HTTP
update and status PENDING after it. -/
theorem C29_http_update_resets_case_witness :
    (Mastercom.GetCase resolvedCaseService "test-case-id").1.map (fun c => c.Status) =
      some "RESOLVED" ∧
    ∃ req c, (Except.ok fixtureRequest : Except String CreateCaseRequest) = .ok req ∧
      Mastercom.GetCase (resolvedCaseHandler.UpdateCase "test-case-id" (.ok fixtureRequest)
        "uuid-1" laterTime laterTime).1.caseService "test-case-id" = (some c, none) ∧
      c = { NewCase "uuid-1" laterTime req with ID := "test-case-id", UpdatedAt := laterTime } ∧
      c.ID = "test-case-id" ∧ c.Status = "PENDING" ∧ c.CreatedAt = laterTime ∧
      c.Documents = [] :=
  ⟨by decide,
   C29_http_update_resets_case resolvedCaseHandler "test-case-id" (.ok fixtureRequest)
     "uuid-1" laterTime laterTime (by decide)⟩

end Mastercom
